import Mathlib

/-!
# StrokeManager: pointer-stroke capture and interpolation

A shallow embedding of `core_lib/src/tool/strokemanager.cpp`.

* The member variables of `StrokeManager` become the fields of `State`; every member
  function becomes a function from the state before the call to the state after it
  (paired with the returned value when the C++ function returns one).
* `qreal` and `float` values are exact rationals: `+`, `-`, `*`, `/` are the field operations
  of `ℚ`, and the rounding of binary floating point is not part of the model.  Literals have
  their exact values (the `float` literal `0.01f` is `5368709 / 2 ^ 29`).  A division by zero,
  which gives an infinity or a NaN in the source, evaluates to `0`.
* Three things the source reads from outside the file are collected in `Env`: the Qt library
  function `QLineF::length`, the reading of the elapsed-time clock, and the (positive) header
  constant `STROKE_QUEUE_LENGTH`.
* `QQueue::dequeue` on an empty queue has no defined result; `interpolatePoll` and its
  callers therefore return an `Option`.
-/

namespace StrokeManager

/-! ## Data model -/

/-- A `QPointF`: two `qreal` coordinates. -/
structure QPointF where
  x : ℚ
  y : ℚ
deriving DecidableEq

namespace QPointF

/-- `operator+(const QPointF &, const QPointF &)`. -/
instance : Add QPointF := ⟨fun a b => ⟨a.x + b.x, a.y + b.y⟩⟩

/-- `operator-(const QPointF &, const QPointF &)`. -/
instance : Sub QPointF := ⟨fun a b => ⟨a.x - b.x, a.y - b.y⟩⟩

/-- `operator*(const QPointF &, qreal)`. -/
instance : HMul QPointF ℚ QPointF := ⟨fun a c => ⟨a.x * c, a.y * c⟩⟩

/-- `operator/(const QPointF &, qreal)`. -/
instance : HDiv QPointF ℚ QPointF := ⟨fun a c => ⟨a.x / c, a.y / c⟩⟩

end QPointF

/-- Modelled from the spec: the enumerator `StabilizationLevel::NONE`; the enumeration is
declared in a header that is not part of the sources at hand.  The spec lists the enumerators
as `NONE`, `SIMPLE`, `STRONG`, and `-1` is the separate "unset" value. -/
def StabilizationLevel.NONE : Int := 0

/-- Modelled from the spec: the enumerator `StabilizationLevel::SIMPLE` (see `NONE`). -/
def StabilizationLevel.SIMPLE : Int := 1

/-- Modelled from the spec: the enumerator `StabilizationLevel::STRONG` (see `NONE`). -/
def StabilizationLevel.STRONG : Int := 2

/-- The Qt constant `Qt::NoButton` (`0x00000000`). -/
def Qt.NoButton : Nat := 0

/-- What the source reads from a `PointerEvent`. -/
structure PointerEvent where
  posF : QPointF
  pressure : ℚ
  button : Nat
  isTabletEvent : Bool
deriving DecidableEq

/-- What the source uses but does not define. -/
structure Env where
  /-- The value of `QLineF(p1, p2).length()`. -/
  length : QPointF → QPointF → ℚ
  /-- The value read from `mSingleshotTime.elapsed()`. -/
  elapsed : Int
  /-- The header constant `STROKE_QUEUE_LENGTH`. -/
  STROKE_QUEUE_LENGTH : Nat
  /-- The constant is positive: with the value `0` the loop
  `while (strokeQueue.size() >= STROKE_QUEUE_LENGTH) strokeQueue.pop_front();` would never
  be left. -/
  STROKE_QUEUE_LENGTH_pos : 0 < STROKE_QUEUE_LENGTH

/-- The member variables of `StrokeManager`.  The `QTimer timer` is represented by whether it
is running and by its interval. -/
structure State where
  m_timeshot : Int
  mTabletInUse : Bool
  mTabletPressure : ℚ
  mStrokeStarted : Bool
  pressureQueue : List ℚ
  strokeQueue : List QPointF
  pressure : ℚ
  mHasTangent : Bool
  timerActive : Bool
  timerInterval : Int
  mStabilizerLevel : Int
  mLastPressPixel : QPointF
  mCurrentPressPixel : QPointF
  mLastPixel : QPointF
  mCurrentPixel : QPointF
  mLastInterpolated : QPointF
  m_previousTangent : QPointF
  mousePos : QPointF
  previousTime : Int
deriving DecidableEq

/-! ## Operations -/

/-- `StrokeManager::reset`. -/
def reset (s : State) : State :=
  { s with
    mStrokeStarted := false
    pressureQueue := []
    strokeQueue := []
    pressure := 0
    mHasTangent := false
    timerActive := false
    mStabilizerLevel := -1 }

/-- `StrokeManager::setPressure`. -/
def setPressure (pressure : ℚ) (s : State) : State :=
  { s with mTabletPressure := pressure }

/-- Modelled from the spec: the accessor `getPressure()`, defined in the class header that is
not part of the sources at hand.  The spec describes the pressure used by the interpolation
as the "last externally-set pressure", which is what `setPressure` stores. -/
def getPressure (s : State) : ℚ :=
  s.mTabletPressure

/-- `StrokeManager::pointerPressEvent`. -/
def pointerPressEvent (event : PointerEvent) (s : State) : State :=
  let s := reset s
  let s :=
    if ¬ (event.button = Qt.NoButton) then
      { s with
        mLastPressPixel := s.mCurrentPressPixel
        mCurrentPressPixel := event.posF }
    else s
  let s := { s with mCurrentPixel := event.posF, mLastPixel := event.posF }
  let s := { s with mStrokeStarted := true }
  setPressure event.pressure s

/-- The loop `while (strokeQueue.size() >= STROKE_QUEUE_LENGTH) strokeQueue.pop_front();`,
for a positive `STROKE_QUEUE_LENGTH = n`: the loop is left as soon as the queue is shorter than
`n`, at the latest when it is empty. -/
def shiftQueue (n : Nat) : List QPointF → List QPointF
  | [] => []
  | p :: q => if (p :: q).length ≥ n then shiftQueue n q else p :: q

/-- `StrokeManager::smoothMousePos`. -/
def smoothMousePos (env : Env) (pos : QPointF) (s : State) : State :=
  let s :=
    if s.mStabilizerLevel = StabilizationLevel.NONE then
      let s := { s with mLastPixel := s.mCurrentPixel }
      let s := { s with mCurrentPixel := pos }
      { s with mLastInterpolated := s.mCurrentPixel }
    else if s.mStabilizerLevel = StabilizationLevel.SIMPLE then
      let smoothPos : QPointF :=
        ⟨(pos.x + s.mCurrentPixel.x) / 2, (pos.y + s.mCurrentPixel.y) / 2⟩
      let s := { s with mLastPixel := s.mCurrentPixel }
      let s := { s with mCurrentPixel := smoothPos }
      let s := { s with mLastInterpolated := s.mCurrentPixel }
      let s := { s with strokeQueue := shiftQueue env.STROKE_QUEUE_LENGTH s.strokeQueue }
      { s with strokeQueue := s.strokeQueue ++ [smoothPos] }
    else if s.mStabilizerLevel = StabilizationLevel.STRONG then
      let smoothPos : QPointF :=
        ⟨(pos.x + s.mLastInterpolated.x) / 2, (pos.y + s.mLastInterpolated.y) / 2⟩
      let s := { s with mLastInterpolated := s.mCurrentPixel }
      let s := { s with mCurrentPixel := smoothPos }
      { s with mLastPixel := s.mLastInterpolated }
    else s
  let s := { s with mousePos := pos }
  if ¬ s.mStrokeStarted then s
  else if ¬ s.mTabletInUse then setPressure 1 s
  else s

/-- `StrokeManager::pointerMoveEvent`. -/
def pointerMoveEvent (env : Env) (event : PointerEvent) (s : State) : State :=
  let s :=
    if s.mStabilizerLevel ≠ -1 then smoothMousePos env event.posF s
    else
      let s := { s with mLastPixel := s.mCurrentPixel }
      let s := { s with mCurrentPixel := event.posF }
      { s with mLastInterpolated := s.mCurrentPixel }
  if event.isTabletEvent then setPressure event.pressure s else s

/-- `StrokeManager::pointerReleaseEvent`. -/
def pointerReleaseEvent (env : Env) (event : PointerEvent) (s : State) : State :=
  let s := if s.mStrokeStarted then pointerMoveEvent env event s else s
  { s with mStrokeStarted := false }

/-- `StrokeManager::setStabilizerLevel`. -/
def setStabilizerLevel (level : Int) (s : State) : State :=
  { s with mStabilizerLevel := level }

/-- The loop `for (int i = sampleSize; i > 0; i--) strokeQueue.enqueue(firstPoint);`. -/
def enqueueTimes : Nat → QPointF → List QPointF → List QPointF
  | 0, _, q => q
  | i + 1, p, q => enqueueTimes i p (q ++ [p])

/-- `StrokeManager::interpolateStart`: the returned point and the state after the call. -/
def interpolateStart (env : Env) (firstPoint : QPointF) (s : State) : QPointF × State :=
  if s.mStabilizerLevel = StabilizationLevel.SIMPLE then
    let s := { s with strokeQueue := [], pressureQueue := [] }
    let s := { s with previousTime := env.elapsed }
    (firstPoint, { s with mLastPixel := firstPoint })
  else if s.mStabilizerLevel = StabilizationLevel.STRONG then
    let s := { s with previousTime := env.elapsed }
    let s := { s with strokeQueue := [], pressureQueue := [] }
    let sampleSize : Nat := 5
    let s := { s with strokeQueue := enqueueTimes sampleSize firstPoint s.strokeQueue }
    let s := { s with mLastInterpolated := firstPoint }
    let s := { s with timerInterval := sampleSize }
    (firstPoint, { s with timerActive := true })
  else if s.mStabilizerLevel = StabilizationLevel.NONE then
    let s := { s with strokeQueue := [], pressureQueue := [] }
    (firstPoint, { s with mLastPixel := firstPoint })
  else (firstPoint, s)

/-- `StrokeManager::interpolatePoll`; `none` when `dequeue` is called on an empty queue. -/
def interpolatePoll (s : State) : Option State :=
  match s.strokeQueue with
  | [] => none
  | _ :: rest => some { s with strokeQueue := rest ++ [s.mLastInterpolated] }

/-- `StrokeManager::noInpolOp`. -/
def noInpolOp (points : List QPointF) (s : State) : List QPointF × State :=
  let s := setPressure (getPressure s) s
  let points := points ++ [s.mLastPixel, s.mLastPixel, s.mCurrentPixel, s.mCurrentPixel]
  (points, { s with mLastPixel := s.mCurrentPixel })

/-- The float literal `0.01f`, promoted to `qreal` in the comparison with `scaleFactor`; its
exact value is `5368709 / 2 ^ 29`, slightly below `1 / 100`. -/
def scaleThreshold : ℚ := 5368709 / 536870912

/-- `StrokeManager::tangentInpolOp`. -/
def tangentInpolOp (env : Env) (points : List QPointF) (s : State) :
    List QPointF × State :=
  let time := env.elapsed
  let smoothness : ℚ := 1
  let scaleFactor : ℚ := env.length s.mLastPixel s.mCurrentPixel * 3
  if ¬ s.mHasTangent ∧ scaleFactor > scaleThreshold then
    let s := { s with mHasTangent := true }
    let s :=
      { s with
        m_previousTangent := (s.mCurrentPixel - s.mLastPixel) * smoothness / (3 * scaleFactor) }
    let s :=
      if env.length ⟨0, 0⟩ s.m_previousTangent < 2 then
        { s with m_previousTangent := ⟨0, 0⟩ }
      else s
    (points, { s with previousTime := time })
  else
    let c1 : QPointF := s.mLastPixel + s.m_previousTangent * scaleFactor
    let newTangent : QPointF := (s.mCurrentPixel - c1) * smoothness / (3 * scaleFactor)
    let newTangent : QPointF := if scaleFactor = 0 then ⟨0, 0⟩ else newTangent
    let c2 : QPointF := s.mCurrentPixel - newTangent * scaleFactor
    let points := points ++ [s.mLastPixel, c1, c2, s.mCurrentPixel]
    let s := { s with m_previousTangent := newTangent }
    (points, { s with previousTime := time })

/-- The accumulation loop of `meanInpolOp`: adds every queued position to `x` and `y`, and the
current pressure to `pressure` once per queued position. -/
def meanLoop (getP : ℚ) : List QPointF → ℚ × ℚ × ℚ → ℚ × ℚ × ℚ
  | [], acc => acc
  | p :: rest, (x, y, pressure) => meanLoop getP rest (x + p.x, y + p.y, pressure + getP)

/-- `StrokeManager::meanInpolOp`.  On an empty queue the source divides `0.0` by `0`; here
that quotient is `0`. -/
def meanInpolOp (points : List QPointF) (x y pressure : ℚ) (s : State) :
    List QPointF × State :=
  let acc := meanLoop (getPressure s) s.strokeQueue (x, y, pressure)
  let x := acc.1 / s.strokeQueue.length
  let y := acc.2.1 / s.strokeQueue.length
  let mNewInterpolated : QPointF := ⟨x, y⟩
  let points :=
    points ++ [s.mLastPixel, s.mLastInterpolated, mNewInterpolated, s.mCurrentPixel]
  (points, { s with mLastPixel := mNewInterpolated })

/-- `StrokeManager::interpolateStroke`: the returned list and the state after the call. -/
def interpolateStroke (env : Env) (s : State) : List QPointF × State :=
  let result : List QPointF := []
  if s.mStabilizerLevel = StabilizationLevel.SIMPLE then tangentInpolOp env result s
  else if s.mStabilizerLevel = StabilizationLevel.STRONG then meanInpolOp result 0 0 0 s
  else if s.mStabilizerLevel = StabilizationLevel.NONE then noInpolOp result s
  else (result, s)

/-- `StrokeManager::interpolatePollAndPaint`, the slot connected to the timer.  The list that
`interpolateStroke` returns is dropped, as in the source. -/
def interpolatePollAndPaint (env : Env) (s : State) : Option State :=
  if ¬ s.strokeQueue.isEmpty then
    (interpolatePoll s).map fun s1 => (interpolateStroke env s1).2
  else some s

/-- The loop `for (int i = sampleSize; i > 0; i--) { interpolatePoll(); interpolateStroke(); }`
of `interpolateEnd`. -/
def drainLoop (env : Env) : Nat → State → Option State
  | 0, s => some s
  | i + 1, s => (interpolatePoll s).bind fun s1 => drainLoop env i (interpolateStroke env s1).2

/-- `StrokeManager::interpolateEnd`. -/
def interpolateEnd (env : Env) (s : State) : Option State :=
  let s := { s with timerActive := false }
  if s.mStabilizerLevel = StabilizationLevel.STRONG then
    if ¬ s.strokeQueue.isEmpty then
      let sampleSize : Nat := 5
      drainLoop env sampleSize s
    else some s
  else some s

/-! ## A concrete environment for evaluation -/

/-- A computable `QLineF::length`: `Rat.sqrt` of the squared distance.  It is the exact
Euclidean length whenever that length is rational, in particular for segments parallel to an
axis. -/
def ratLength (p1 p2 : QPointF) : ℚ :=
  Rat.sqrt ((p2.x - p1.x) * (p2.x - p1.x) + (p2.y - p1.y) * (p2.y - p1.y))

/-- An environment with `ratLength` as the length, clock reading `0` and
`STROKE_QUEUE_LENGTH = 3`. -/
def ratEnv : Env :=
  { length := ratLength
    elapsed := 0
    STROKE_QUEUE_LENGTH := 3
    STROKE_QUEUE_LENGTH_pos := by decide }

/-- The state built by the constructor `StrokeManager::StrokeManager()`, with the members
the constructor leaves to their default constructors set to zero. -/
def initial : State :=
  reset
    { m_timeshot := 0
      mTabletInUse := false
      mTabletPressure := 0
      mStrokeStarted := false
      pressureQueue := []
      strokeQueue := []
      pressure := 0
      mHasTangent := false
      timerActive := false
      timerInterval := 0
      mStabilizerLevel := -1
      mLastPressPixel := ⟨0, 0⟩
      mCurrentPressPixel := ⟨0, 0⟩
      mLastPixel := ⟨0, 0⟩
      mCurrentPixel := ⟨0, 0⟩
      mLastInterpolated := ⟨0, 0⟩
      m_previousTangent := ⟨0, 0⟩
      mousePos := ⟨0, 0⟩
      previousTime := 0 }

/-! ## Call sequences -/

/-- One call made by the drawing tool while a stroke is in progress: `pointerMoveEvent(event)`
or `interpolateStroke()`. -/
inductive StrokeOp where
  | move (event : PointerEvent)
  | stroke
deriving DecidableEq

/-- Whether the call is a `pointerMoveEvent`. -/
def StrokeOp.isMove : StrokeOp → Bool
  | .move _ => true
  | .stroke => false

/-- The lists returned by the `interpolateStroke` calls of a call sequence, in call order. -/
def emitted (env : Env) : State → List StrokeOp → List (List QPointF)
  | _, [] => []
  | s, .move event :: ops => emitted env (pointerMoveEvent env event s) ops
  | s, .stroke :: ops =>
    (interpolateStroke env s).1 :: emitted env (interpolateStroke env s).2 ops

/-- Segment `b` continues segment `a`: both have four points, and the first and the second
point of `b` are the fourth point of `a`. -/
def Joined (a b : List QPointF) : Prop :=
  a.length = 4 ∧ b.length = 4 ∧ b[0]? = a[3]? ∧ b[1]? = a[3]?

instance (a b : List QPointF) : Decidable (Joined a b) :=
  inferInstanceAs (Decidable (a.length = 4 ∧ b.length = 4 ∧ b[0]? = a[3]? ∧ b[1]? = a[3]?))

/-- No two `pointerMoveEvent` calls are adjacent in the call sequence. -/
def MovesApart (ops : List StrokeOp) : Prop :=
  List.Chain' (fun a b => ¬ (a.isMove = true ∧ b.isMove = true)) ops

/-- The point at which the next segment returned in NONE mode starts: `mCurrentPixel` when a
move comes first (the move copies it to `mLastPixel`), `mLastPixel` otherwise. -/
def nextStart (s : State) : List StrokeOp → QPointF
  | .move _ :: _ => s.mCurrentPixel
  | _ => s.mLastPixel

/-- A pointer event at a position, from a mouse with a button held. -/
def mouseAt (x y : ℚ) : PointerEvent :=
  { posF := ⟨x, y⟩, pressure := 1, button := 1, isTabletEvent := false }

/-- The arithmetic mean of the positions in a window, coordinate by coordinate: the sum of
the coordinates divided by the number of positions. -/
def meanPoint (window : List QPointF) : QPointF :=
  ⟨(window.map (·.x)).sum / window.length, (window.map (·.y)).sum / window.length⟩

/-- One poll+stroke cycle: `interpolatePoll(); interpolateStroke();`, the returned list
dropped. -/
def pollStrokeCycle (env : Env) (s : State) : Option State :=
  (interpolatePoll s).map fun s1 => (interpolateStroke env s1).2

/-- A call of one member function of `StrokeManager`. -/
inductive Call where
  | reset
  | setPressure (pressure : ℚ)
  | pointerPress (event : PointerEvent)
  | pointerMove (event : PointerEvent)
  | pointerRelease (event : PointerEvent)
  | setStabilizerLevel (level : Int)
  | interpolateStart (firstPoint : QPointF)
  | interpolatePoll
  | interpolatePollAndPaint
  | interpolateStroke
  | interpolateEnd
deriving DecidableEq

/-- The state after a call; `none` when the call runs into `dequeue` on an empty queue. -/
def applyCall (env : Env) : Call → State → Option State
  | .reset, s => some (reset s)
  | .setPressure pressure, s => some (setPressure pressure s)
  | .pointerPress event, s => some (pointerPressEvent event s)
  | .pointerMove event, s => some (pointerMoveEvent env event s)
  | .pointerRelease event, s => some (pointerReleaseEvent env event s)
  | .setStabilizerLevel level, s => some (setStabilizerLevel level s)
  | .interpolateStart firstPoint, s => some (interpolateStart env firstPoint s).2
  | .interpolatePoll, s => interpolatePoll s
  | .interpolatePollAndPaint, s => interpolatePollAndPaint env s
  | .interpolateStroke, s => some (interpolateStroke env s).2
  | .interpolateEnd, s => interpolateEnd env s

/-- The state after a sequence of calls, made in list order. -/
def runCalls (env : Env) : List Call → State → Option State
  | [], s => some s
  | call :: calls, s => (applyCall env call s).bind (runCalls env calls)

/-- The calls that occur while a STRONG stroke is in progress and leave the level as it is:
poll cycles, pointer moves, `interpolateStroke` and `interpolateEnd`. -/
def Call.keepsWindow : Call → Bool
  | .interpolatePoll => true
  | .interpolatePollAndPaint => true
  | .pointerMove _ => true
  | .interpolateStroke => true
  | .interpolateEnd => true
  | _ => false

/-- A STRONG stroke in progress: press at (2, 4), level STRONG, `interpolateStart`, then moves
to (6, 8) and to (10, 12). -/
def strongSample : State :=
  pointerMoveEvent ratEnv (mouseAt 10 12)
    (pointerMoveEvent ratEnv (mouseAt 6 8)
      (interpolateStart ratEnv ⟨2, 4⟩
        (setStabilizerLevel StabilizationLevel.STRONG (pointerPressEvent (mouseAt 2 4) initial))).2)

/-- The end-to-end SIMPLE scenario: press at (0,0), level SIMPLE, `interpolateStart`, move to
(10,0), move to (20,0), release at (20,0), with `interpolateStroke()` called after each of
the two moves and after the release.  The three returned lists, in call order. -/
def simpleScenario (env : Env) (s0 : State) : List QPointF × List QPointF × List QPointF :=
  let s := pointerPressEvent (mouseAt 0 0) s0
  let s := setStabilizerLevel StabilizationLevel.SIMPLE s
  let s := (interpolateStart env ⟨0, 0⟩ s).2
  let s := pointerMoveEvent env (mouseAt 10 0) s
  let r1 := interpolateStroke env s
  let s := pointerMoveEvent env (mouseAt 20 0) r1.2
  let r2 := interpolateStroke env s
  let s := pointerReleaseEvent env (mouseAt 20 0) r2.2
  let r3 := interpolateStroke env s
  (r1.1, r2.1, r3.1)

/-- The zero-movement stroke: `reset()`, press at `p`, level `level`, `interpolateStart(p)`,
release at `p`; the state in which `interpolateStroke()` is then called. -/
def zeroMovement (env : Env) (level : Int) (press release : PointerEvent) (s0 : State) :
    State :=
  let s := reset s0
  let s := pointerPressEvent press s
  let s := setStabilizerLevel level s
  let s := (interpolateStart env press.posF s).2
  pointerReleaseEvent env release s

/-- The members that decide what `tangentInpolOp` returns, in SIMPLE mode. -/
def SimpleAt (s : State) (last cur : QPointF) (hasTangent : Bool) (tangent : QPointF)
    (started : Bool) : Prop :=
  s.mStabilizerLevel = StabilizationLevel.SIMPLE ∧ s.mLastPixel = last ∧
    s.mCurrentPixel = cur ∧ s.mHasTangent = hasTangent ∧ s.m_previousTangent = tangent ∧
    s.mStrokeStarted = started

/-- A SIMPLE stroke before its first `interpolateStroke()`: press at (0,0), level SIMPLE,
`interpolateStart`, move to (10,0). -/
def seedSample : State :=
  pointerMoveEvent ratEnv (mouseAt 10 0)
    (interpolateStart ratEnv ⟨0, 0⟩
      (setStabilizerLevel StabilizationLevel.SIMPLE (pointerPressEvent (mouseAt 0 0) initial))).2

/-- The stroke `seedSample` after its first `interpolateStroke()` and a move to (20,0). -/
def tangentSample : State :=
  pointerMoveEvent ratEnv (mouseAt 20 0) (interpolateStroke ratEnv seedSample).2

/-- The calls that leave the stabilization level alone: all but `reset`, `pointerPressEvent`
(which calls `reset`) and `setStabilizerLevel`. -/
def Call.keepsLevel : Call → Bool
  | .reset => false
  | .pointerPress _ => false
  | .setStabilizerLevel _ => false
  | _ => true

/-- A STRONG stroke right after priming: press at (0,0), level STRONG, `interpolateStart`. -/
def primedSample : State :=
  (interpolateStart ratEnv ⟨0, 0⟩
    (setStabilizerLevel StabilizationLevel.STRONG (pointerPressEvent (mouseAt 0 0) initial))).2

/-- A pointer event at a position, from a tablet pen with pressure 1/2. -/
def tabletAt (x y : ℚ) : PointerEvent :=
  { posF := ⟨x, y⟩, pressure := 1 / 2, button := 1, isTabletEvent := true }

/-- A second SIMPLE stroke, before its first `interpolateStroke()`: after the stroke of
`tangentSample` has returned its segment (leaving the tangent (1/9, 0) cached), press at
(0,0), level SIMPLE, `interpolateStart`, and a pen move to (1/500, 0). -/
def staleSample : State :=
  pointerMoveEvent ratEnv (tabletAt (1 / 500) 0)
    (interpolateStart ratEnv ⟨0, 0⟩
      (setStabilizerLevel StabilizationLevel.SIMPLE
        (pointerPressEvent (tabletAt 0 0) (interpolateStroke ratEnv tangentSample).2))).2

/-- `QLineF(p, q).length()` is the Euclidean distance of `p` and `q`: it is not negative, and
its square is the sum of the squared coordinate differences. -/
def Euclidean (env : Env) (p q : QPointF) : Prop :=
  0 ≤ env.length p q ∧
    env.length p q * env.length p q =
      (q.x - p.x) * (q.x - p.x) + (q.y - p.y) * (q.y - p.y)

instance (env : Env) (p q : QPointF) : Decidable (Euclidean env p q) :=
  inferInstanceAs (Decidable (0 ≤ env.length p q ∧
    env.length p q * env.length p q =
      (q.x - p.x) * (q.x - p.x) + (q.y - p.y) * (q.y - p.y)))

/-- The state after a sequence of `pointerMoveEvent` calls. -/
def moveAll (env : Env) : List PointerEvent → State → State
  | [], s => s
  | event :: events, s => moveAll env events (pointerMoveEvent env event s)

/-! ## Theorems -/

open StabilizationLevel

/-! ### NONE mode -/

theorem interpolateStroke_of_NONE (env : Env) (s : State)
    (h : s.mStabilizerLevel = NONE) :
    interpolateStroke env s =
      ([s.mLastPixel, s.mLastPixel, s.mCurrentPixel, s.mCurrentPixel],
        { s with mLastPixel := s.mCurrentPixel }) := by
  simp [interpolateStroke, noInpolOp, setPressure, getPressure, h, NONE, SIMPLE, STRONG]

theorem pointerMoveEvent_of_NONE (env : Env) (event : PointerEvent) (s : State)
    (h : s.mStabilizerLevel = NONE) :
    (pointerMoveEvent env event s).mStabilizerLevel = NONE ∧
    (pointerMoveEvent env event s).mLastPixel = s.mCurrentPixel ∧
    (pointerMoveEvent env event s).mCurrentPixel = event.posF := by
  simp only [pointerMoveEvent, smoothMousePos, setPressure, h, NONE]
  split_ifs <;> simp_all

theorem interpolateStart_level (env : Env) (firstPoint : QPointF) (s : State) :
    (interpolateStart env firstPoint s).2.mStabilizerLevel = s.mStabilizerLevel := by
  unfold interpolateStart
  split_ifs <;> rfl

theorem emitted_length_of_NONE (env : Env) :
    ∀ (ops : List StrokeOp) (s : State), s.mStabilizerLevel = NONE →
      ∀ seg ∈ emitted env s ops, seg.length = 4 := by
  intro ops
  induction ops with
  | nil => intro s _ seg hseg; simp [emitted] at hseg
  | cons op ops ih =>
    intro s h seg hseg
    cases op with
    | move event =>
      exact ih _ (pointerMoveEvent_of_NONE env event s h).1 seg (by simpa [emitted] using hseg)
    | stroke =>
      rw [emitted, interpolateStroke_of_NONE env s h] at hseg
      rcases List.mem_cons.mp hseg with rfl | hmem
      · rfl
      · exact ih { s with mLastPixel := s.mCurrentPixel } h seg hmem

theorem emitted_head_of_NONE (env : Env) (ops : List StrokeOp) (s : State)
    (h : s.mStabilizerLevel = NONE) (hm : MovesApart ops) :
    ∀ seg ∈ (emitted env s ops).head?,
      seg.length = 4 ∧ seg[0]? = some (nextStart s ops) ∧ seg[1]? = some (nextStart s ops) := by
  intro seg hseg
  match ops, hm with
  | [], _ => simp [emitted] at hseg
  | .stroke :: rest, _ =>
    rw [emitted, interpolateStroke_of_NONE env s h] at hseg
    simp only [List.head?_cons, Option.mem_def, Option.some.injEq] at hseg
    subst hseg
    simp [nextStart]
  | [.move event], _ => simp [emitted] at hseg
  | .move event :: .move event2 :: rest, hm =>
    exact absurd ⟨rfl, rfl⟩ (List.chain'_cons.mp hm).1
  | .move event :: .stroke :: rest, _ =>
    obtain ⟨hl, hlast, _⟩ := pointerMoveEvent_of_NONE env event s h
    rw [emitted, emitted, interpolateStroke_of_NONE env _ hl] at hseg
    simp only [List.head?_cons, Option.mem_def, Option.some.injEq] at hseg
    subst hseg
    simp [nextStart, hlast]

theorem emitted_chain_of_NONE (env : Env) :
    ∀ (ops : List StrokeOp) (s : State), s.mStabilizerLevel = NONE → MovesApart ops →
      List.Chain' Joined (emitted env s ops) := by
  intro ops
  induction ops with
  | nil => intro s _ _; simp [emitted]
  | cons op ops ih =>
    intro s h hm
    have hm2 : MovesApart ops := List.Chain'.tail hm
    cases op with
    | move event =>
      rw [emitted]
      exact ih _ (pointerMoveEvent_of_NONE env event s h).1 hm2
    | stroke =>
      rw [emitted, interpolateStroke_of_NONE env s h]
      refine List.chain'_cons'.mpr ⟨?_, ih { s with mLastPixel := s.mCurrentPixel } h hm2⟩
      intro seg hseg
      obtain ⟨h4, h0, h1⟩ :=
        emitted_head_of_NONE env ops { s with mLastPixel := s.mCurrentPixel } h hm2 seg hseg
      refine ⟨rfl, h4, ?_, ?_⟩
      · rw [h0]; cases ops with
        | nil => rfl
        | cons op2 _ => cases op2 <;> rfl
      · rw [h1]; cases ops with
        | nil => rfl
        | cons op2 _ => cases op2 <;> rfl

/-- C1: with level NONE, `interpolateStroke()` returns exactly the four points
`[lastPixel, lastPixel, currentPixel, currentPixel]` (values before the call); afterwards
`lastPixel` equals `currentPixel`, and every other member (in particular `currentPixel`,
`lastInterpolated`, both queues and the stored pressure) is unchanged. -/
theorem C1_interpolateStroke_NONE (env : Env) (s : State)
    (h : s.mStabilizerLevel = NONE) :
    interpolateStroke env s =
        ([s.mLastPixel, s.mLastPixel, s.mCurrentPixel, s.mCurrentPixel],
          { s with mLastPixel := s.mCurrentPixel }) ∧
      (interpolateStroke env s).2.mLastPixel = (interpolateStroke env s).2.mCurrentPixel ∧
      (interpolateStroke env s).2.mCurrentPixel = s.mCurrentPixel ∧
      (interpolateStroke env s).2.mLastInterpolated = s.mLastInterpolated ∧
      (interpolateStroke env s).2.strokeQueue = s.strokeQueue ∧
      (interpolateStroke env s).2.pressureQueue = s.pressureQueue ∧
      (interpolateStroke env s).2.mTabletPressure = s.mTabletPressure ∧
      (interpolateStroke env s).2.pressure = s.pressure := by
  rw [interpolateStroke_of_NONE env s h]
  exact ⟨rfl, rfl, rfl, rfl, rfl, rfl, rfl, rfl⟩

/-- Witness of C1: a stroke from (1, 2) to (3, 4) in NONE mode. -/
theorem C1_interpolateStroke_NONE_witness :
    (interpolateStroke ratEnv
        (pointerMoveEvent ratEnv (mouseAt 3 4)
          (setStabilizerLevel NONE (pointerPressEvent (mouseAt 1 2) initial)))).1
      = [⟨1, 2⟩, ⟨1, 2⟩, ⟨3, 4⟩, ⟨3, 4⟩] :=
  ((C1_interpolateStroke_NONE ratEnv
        (pointerMoveEvent ratEnv (mouseAt 3 4)
          (setStabilizerLevel NONE (pointerPressEvent (mouseAt 1 2) initial)))
        (by decide!)).1 ▸ (by decide!))

/-- Counterexample to C2 as stated: in NONE mode, after `interpolateStart`, the calls
move to (1,0); stroke; move to (2,0); move to (3,0); stroke return the segments
`[(0,0),(0,0),(1,0),(1,0)]` and `[(2,0),(2,0),(3,0),(3,0)]`: the second one starts at (2,0),
not at the end (1,0) of the first. -/
theorem C2_continuity_counterexample :
    emitted ratEnv
        (interpolateStart ratEnv ⟨0, 0⟩
          (setStabilizerLevel NONE (pointerPressEvent (mouseAt 0 0) initial))).2
        [.move (mouseAt 1 0), .stroke, .move (mouseAt 2 0), .move (mouseAt 3 0), .stroke]
      = [[⟨0, 0⟩, ⟨0, 0⟩, ⟨1, 0⟩, ⟨1, 0⟩], [⟨2, 0⟩, ⟨2, 0⟩, ⟨3, 0⟩, ⟨3, 0⟩]] ∧
    ¬ List.Chain' Joined
      (emitted ratEnv
        (interpolateStart ratEnv ⟨0, 0⟩
          (setStabilizerLevel NONE (pointerPressEvent (mouseAt 0 0) initial))).2
        [.move (mouseAt 1 0), .stroke, .move (mouseAt 2 0), .move (mouseAt 3 0), .stroke]) := by
  have hrun :
      emitted ratEnv
        (interpolateStart ratEnv ⟨0, 0⟩
          (setStabilizerLevel NONE (pointerPressEvent (mouseAt 0 0) initial))).2
        [.move (mouseAt 1 0), .stroke, .move (mouseAt 2 0), .move (mouseAt 3 0), .stroke]
      = [[⟨0, 0⟩, ⟨0, 0⟩, ⟨1, 0⟩, ⟨1, 0⟩], [⟨2, 0⟩, ⟨2, 0⟩, ⟨3, 0⟩, ⟨3, 0⟩]] := by
    decide!
  refine ⟨hrun, ?_⟩
  rw [hrun, List.chain'_pair]
  decide!

/-- C2 (amended): with level NONE active, for every sequence of `pointerMoveEvent` and
`interpolateStroke` calls following `interpolateStart` in which no two moves are adjacent,
every returned segment has four points, and the first and second point of every returned
segment equal the fourth point of the segment returned before it. -/
theorem C2_continuity_moves_apart (env : Env) (s : State) (firstPoint : QPointF)
    (ops : List StrokeOp) (h : s.mStabilizerLevel = NONE) (hm : MovesApart ops) :
    (∀ seg ∈ emitted env (interpolateStart env firstPoint s).2 ops, seg.length = 4) ∧
      List.Chain' Joined (emitted env (interpolateStart env firstPoint s).2 ops) :=
  have hl : (interpolateStart env firstPoint s).2.mStabilizerLevel = NONE := by
    rw [interpolateStart_level, h]
  ⟨emitted_length_of_NONE env ops _ hl, emitted_chain_of_NONE env ops _ hl hm⟩

/-- Witness of C2 (amended): move, stroke, stroke, move, stroke in NONE mode. -/
theorem C2_continuity_moves_apart_witness :
    List.Chain' Joined
      (emitted ratEnv
        (interpolateStart ratEnv ⟨0, 0⟩
          (setStabilizerLevel NONE (pointerPressEvent (mouseAt 0 0) initial))).2
        [.move (mouseAt 1 0), .stroke, .stroke, .move (mouseAt 3 0), .stroke]) :=
  (C2_continuity_moves_apart ratEnv
    (setStabilizerLevel NONE (pointerPressEvent (mouseAt 0 0) initial)) ⟨0, 0⟩
    [.move (mouseAt 1 0), .stroke, .stroke, .move (mouseAt 3 0), .stroke]
    (by decide!) (by simp [MovesApart, StrokeOp.isMove])).2

/-! ### STRONG mode -/

theorem meanLoop_eq (getP : ℚ) :
    ∀ (q : List QPointF) (x y pressure : ℚ),
      meanLoop getP q (x, y, pressure) =
        (x + (q.map (·.x)).sum, y + (q.map (·.y)).sum, pressure + q.length * getP) := by
  intro q
  induction q with
  | nil => intro x y pressure; simp [meanLoop]
  | cons p rest ih =>
    intro x y pressure
    rw [meanLoop, ih]
    simp only [List.map_cons, List.sum_cons, List.length_cons, Nat.cast_add, Nat.cast_one,
      Prod.mk.injEq]
    refine ⟨by ring, by ring, by ring⟩

theorem interpolateStroke_of_STRONG (env : Env) (s : State)
    (h : s.mStabilizerLevel = STRONG) :
    interpolateStroke env s =
      ([s.mLastPixel, s.mLastInterpolated, meanPoint s.strokeQueue, s.mCurrentPixel],
        { s with mLastPixel := meanPoint s.strokeQueue }) := by
  simp [interpolateStroke, meanInpolOp, meanLoop_eq, meanPoint, h, NONE, SIMPLE, STRONG,
    -Prod.mk_zero_zero]

theorem enqueueTimes_eq : ∀ (n : Nat) (p : QPointF) (q : List QPointF),
    enqueueTimes n p q = q ++ List.replicate n p := by
  intro n
  induction n with
  | zero => intro p q; simp [enqueueTimes]
  | succ n ih =>
    intro p q
    rw [enqueueTimes, ih, List.append_assoc, List.singleton_append, ← List.replicate_succ]

theorem interpolateStart_of_STRONG (env : Env) (firstPoint : QPointF) (s : State)
    (h : s.mStabilizerLevel = STRONG) :
    interpolateStart env firstPoint s =
      (firstPoint,
        { s with
          previousTime := env.elapsed
          strokeQueue := [firstPoint, firstPoint, firstPoint, firstPoint, firstPoint]
          pressureQueue := []
          mLastInterpolated := firstPoint
          timerInterval := 5
          timerActive := true }) := by
  simp [interpolateStart, enqueueTimes_eq, h, NONE, SIMPLE, STRONG, List.replicate]

theorem meanPoint_replicate_five (p : QPointF) : meanPoint [p, p, p, p, p] = p := by
  cases p with
  | mk x y =>
    simp only [meanPoint, List.map_cons, List.map_nil, List.sum_cons, List.sum_nil,
      List.length_cons, List.length_nil, QPointF.mk.injEq]
    constructor <;> (norm_num; ring)

theorem pollStrokeCycle_of_STRONG (env : Env) (s : State) (oldest : QPointF)
    (rest : List QPointF) (h : s.mStabilizerLevel = STRONG)
    (hq : s.strokeQueue = oldest :: rest) :
    pollStrokeCycle env s =
      some { s with
        strokeQueue := rest ++ [s.mLastInterpolated]
        mLastPixel := meanPoint (rest ++ [s.mLastInterpolated]) } := by
  have hpoll :
      interpolatePoll s = some { s with strokeQueue := rest ++ [s.mLastInterpolated] } := by
    simp [interpolatePoll, hq]
  rw [pollStrokeCycle, hpoll, Option.map_some',
    interpolateStroke_of_STRONG env
      { s with strokeQueue := rest ++ [s.mLastInterpolated] } h]

theorem interpolatePollAndPaint_eq_cycle (env : Env) (s : State) (h : s.strokeQueue ≠ []) :
    interpolatePollAndPaint env s = pollStrokeCycle env s := by
  simp [interpolatePollAndPaint, pollStrokeCycle, h]

theorem primed_cycle (env : Env) (s1 : State) (p0 : QPointF)
    (h : s1.mStabilizerLevel = STRONG) (hq : s1.strokeQueue = [p0, p0, p0, p0, p0])
    (hi : s1.mLastInterpolated = p0) :
    interpolatePoll s1 = some s1 ∧
      interpolateStroke env s1 =
        ([s1.mLastPixel, p0, p0, s1.mCurrentPixel], { s1 with mLastPixel := p0 }) ∧
      interpolatePollAndPaint env s1 = some { s1 with mLastPixel := p0 } := by
  have hpoll : interpolatePoll s1 = some s1 := by
    cases s1
    simp only at hq hi
    simp [interpolatePoll, hq, hi]
  have hstroke :
      interpolateStroke env s1 =
        ([s1.mLastPixel, p0, p0, s1.mCurrentPixel], { s1 with mLastPixel := p0 }) := by
    rw [interpolateStroke_of_STRONG env s1 h, hq, hi, meanPoint_replicate_five]
  refine ⟨hpoll, hstroke, ?_⟩
  simp [interpolatePollAndPaint, hpoll, hstroke, hq]

theorem cycle_keeps_window (env : Env) (s : State) (h : s.mStabilizerLevel = STRONG)
    (hq : s.strokeQueue ≠ []) :
    ∃ s1, pollStrokeCycle env s = some s1 ∧ s1.mStabilizerLevel = STRONG ∧
      s1.strokeQueue.length = s.strokeQueue.length ∧ s1.timerActive = s.timerActive := by
  obtain ⟨oldest, rest, hrest⟩ := List.exists_cons_of_ne_nil hq
  refine ⟨_, pollStrokeCycle_of_STRONG env s oldest rest h hrest, h, ?_, rfl⟩
  simp [hrest]

theorem drainLoop_succ (env : Env) (i : Nat) (s : State) :
    drainLoop env (i + 1) s = (pollStrokeCycle env s).bind (drainLoop env i) := by
  rw [drainLoop, pollStrokeCycle]
  cases interpolatePoll s <;> rfl

theorem drainLoop_keeps_window (env : Env) :
    ∀ (i : Nat) (s : State), s.mStabilizerLevel = STRONG → s.strokeQueue ≠ [] →
      ∃ s1, drainLoop env i s = some s1 ∧ s1.mStabilizerLevel = STRONG ∧
        s1.strokeQueue.length = s.strokeQueue.length ∧ s1.timerActive = s.timerActive := by
  intro i
  induction i with
  | zero => intro s h _; exact ⟨s, rfl, h, rfl, rfl⟩
  | succ i ih =>
    intro s h hq
    obtain ⟨s1, hs1, hl1, hq1, ht1⟩ := cycle_keeps_window env s h hq
    have hne : s1.strokeQueue ≠ [] := by
      intro hnil
      rw [hnil] at hq1
      exact hq (List.length_eq_zero.mp hq1.symm)
    obtain ⟨s2, hs2, hl2, hq2, ht2⟩ := ih s1 hl1 hne
    exact ⟨s2, by rw [drainLoop_succ, hs1, Option.some_bind, hs2], hl2, hq2.trans hq1,
      ht2.trans ht1⟩

theorem interpolateEnd_of_STRONG (env : Env) (s : State)
    (h : s.mStabilizerLevel = STRONG) (hq : s.strokeQueue ≠ []) :
    interpolateEnd env s = drainLoop env 5 { s with timerActive := false } := by
  simp [interpolateEnd, h, hq]

theorem pointerMoveEvent_STRONG_fields (env : Env) (event : PointerEvent) (s : State)
    (h : s.mStabilizerLevel = STRONG) :
    (pointerMoveEvent env event s).mStabilizerLevel = STRONG ∧
      (pointerMoveEvent env event s).strokeQueue = s.strokeQueue ∧
      (pointerMoveEvent env event s).mLastPixel = s.mCurrentPixel ∧
      (pointerMoveEvent env event s).mLastInterpolated = s.mCurrentPixel ∧
      (pointerMoveEvent env event s).mCurrentPixel =
        ⟨(event.posF.x + s.mLastInterpolated.x) / 2,
          (event.posF.y + s.mLastInterpolated.y) / 2⟩ := by
  simp only [pointerMoveEvent, smoothMousePos, setPressure, h, NONE, SIMPLE, STRONG]
  split_ifs <;> simp_all

theorem keepsWindow_step (env : Env) (call : Call) (s : State) (hc : call.keepsWindow = true)
    (h : s.mStabilizerLevel = STRONG) (hq : s.strokeQueue.length = 5) :
    ∃ s1, applyCall env call s = some s1 ∧ s1.mStabilizerLevel = STRONG ∧
      s1.strokeQueue.length = 5 := by
  have hne : s.strokeQueue ≠ [] := by
    intro hnil; rw [hnil] at hq; exact absurd hq (by decide)
  cases call with
  | interpolatePoll =>
    obtain ⟨oldest, rest, hrest⟩ := List.exists_cons_of_ne_nil hne
    refine ⟨{ s with strokeQueue := rest ++ [s.mLastInterpolated] }, ?_, h, ?_⟩
    · simp [applyCall, interpolatePoll, hrest]
    · simpa [hrest] using hq
  | interpolatePollAndPaint =>
    obtain ⟨s1, hs1, hl1, hq1, _⟩ := cycle_keeps_window env s h hne
    exact ⟨s1, by rw [applyCall, interpolatePollAndPaint_eq_cycle env s hne, hs1], hl1,
      hq1.trans hq⟩
  | pointerMove event =>
    obtain ⟨hl, hqm, -⟩ := pointerMoveEvent_STRONG_fields env event s h
    exact ⟨_, rfl, hl, by rw [hqm, hq]⟩
  | interpolateStroke =>
    refine ⟨_, rfl, ?_, ?_⟩
    · rw [interpolateStroke_of_STRONG env s h]; exact h
    · rw [interpolateStroke_of_STRONG env s h]; exact hq
  | interpolateEnd =>
    obtain ⟨s1, hs1, hl1, hq1, _⟩ :=
      drainLoop_keeps_window env 5 { s with timerActive := false } h hne
    exact ⟨s1, by rw [applyCall, interpolateEnd_of_STRONG env s h hne, hs1], hl1, hq1.trans hq⟩
  | reset => simp [Call.keepsWindow] at hc
  | setPressure _ => simp [Call.keepsWindow] at hc
  | pointerPress _ => simp [Call.keepsWindow] at hc
  | pointerRelease _ => simp [Call.keepsWindow] at hc
  | setStabilizerLevel _ => simp [Call.keepsWindow] at hc
  | interpolateStart _ => simp [Call.keepsWindow] at hc

theorem runCalls_keeps_window (env : Env) :
    ∀ (calls : List Call) (s : State), (∀ call ∈ calls, call.keepsWindow = true) →
      s.mStabilizerLevel = STRONG → s.strokeQueue.length = 5 →
      ∃ s1, runCalls env calls s = some s1 ∧ s1.mStabilizerLevel = STRONG ∧
        s1.strokeQueue.length = 5 := by
  intro calls
  induction calls with
  | nil => intro s _ h hq; exact ⟨s, rfl, h, hq⟩
  | cons call calls ih =>
    intro s hc h hq
    obtain ⟨s1, hs1, hl1, hq1⟩ :=
      keepsWindow_step env call s (hc call (List.mem_cons_self _ _)) h hq
    obtain ⟨s2, hs2, hl2, hq2⟩ :=
      ih s1 (fun c hmem => hc c (List.mem_cons_of_mem _ hmem)) hl1 hq1
    exact ⟨s2, by rw [runCalls, hs1, Option.some_bind, hs2], hl2, hq2⟩

/-- C3: STRONG poll+stroke step.  On an empty window a timer tick
(`interpolatePollAndPaint`) changes nothing.  On a non-empty window with level STRONG it
removes the oldest queued position and appends the current `lastInterpolated`; the
`interpolateStroke` call of the tick returns
`[lastPixel, lastInterpolated, newInterpolated, currentPixel]`, where `newInterpolated` is the
arithmetic mean (x and y separately) of the positions then in the window, and sets
`lastPixel = newInterpolated`; no other member changes. -/
theorem C3_pollAndPaint_STRONG (env : Env) (s : State) :
    (s.strokeQueue = [] → interpolatePollAndPaint env s = some s) ∧
    (∀ (oldest : QPointF) (rest : List QPointF),
      s.mStabilizerLevel = STRONG → s.strokeQueue = oldest :: rest →
        interpolatePoll s = some { s with strokeQueue := rest ++ [s.mLastInterpolated] } ∧
        interpolateStroke env { s with strokeQueue := rest ++ [s.mLastInterpolated] } =
          ([s.mLastPixel, s.mLastInterpolated, meanPoint (rest ++ [s.mLastInterpolated]),
              s.mCurrentPixel],
            { s with
              strokeQueue := rest ++ [s.mLastInterpolated]
              mLastPixel := meanPoint (rest ++ [s.mLastInterpolated]) }) ∧
        interpolatePollAndPaint env s =
          some { s with
            strokeQueue := rest ++ [s.mLastInterpolated]
            mLastPixel := meanPoint (rest ++ [s.mLastInterpolated]) }) := by
  constructor
  · intro hq
    simp [interpolatePollAndPaint, hq]
  · intro oldest rest h hq
    refine ⟨by simp [interpolatePoll, hq], interpolateStroke_of_STRONG env _ h, ?_⟩
    rw [interpolatePollAndPaint_eq_cycle env s (by simp [hq]),
      pollStrokeCycle_of_STRONG env s oldest rest h hq]

/-- Witness of C3: a tick on the window `[(2,4), (2,4), (2,4), (2,4), (2,4)]` with
`lastInterpolated = (4, 6)`; the new mean is `(12/5, 22/5)`. -/
theorem C3_pollAndPaint_STRONG_witness :
    strongSample.mStabilizerLevel = STRONG ∧
      strongSample.strokeQueue = ⟨2, 4⟩ :: [⟨2, 4⟩, ⟨2, 4⟩, ⟨2, 4⟩, ⟨2, 4⟩] ∧
      interpolatePollAndPaint ratEnv strongSample =
        some { strongSample with
          strokeQueue := [⟨2, 4⟩, ⟨2, 4⟩, ⟨2, 4⟩, ⟨2, 4⟩, ⟨4, 6⟩]
          mLastPixel := ⟨12 / 5, 22 / 5⟩ } :=
  ⟨by decide!, by decide!,
    ((C3_pollAndPaint_STRONG ratEnv strongSample).2 ⟨2, 4⟩ [⟨2, 4⟩, ⟨2, 4⟩, ⟨2, 4⟩, ⟨2, 4⟩]
      (by decide!) (by decide!)).2.2.trans (by decide!)⟩

/-- C5: STRONG window invariant.  After `interpolateStart(p0)` with level STRONG the window
holds 5 positions, and every sequence of `interpolatePoll`, `interpolatePollAndPaint`,
`pointerMoveEvent`, `interpolateStroke` and `interpolateEnd` calls made from there runs
through (no `dequeue` on an empty queue) and ends in a state whose window still holds 5
positions, the level still being STRONG. -/
theorem C5_window_size_STRONG (env : Env) (s : State) (p0 : QPointF) (calls : List Call)
    (h : s.mStabilizerLevel = STRONG) (hc : ∀ call ∈ calls, call.keepsWindow = true) :
    (interpolateStart env p0 s).2.strokeQueue.length = 5 ∧
      ∃ s1, runCalls env calls (interpolateStart env p0 s).2 = some s1 ∧
        s1.mStabilizerLevel = STRONG ∧ s1.strokeQueue.length = 5 := by
  have hq : (interpolateStart env p0 s).2.strokeQueue.length = 5 := by
    rw [interpolateStart_of_STRONG env p0 s h]; rfl
  exact ⟨hq, runCalls_keeps_window env calls _ hc (by rw [interpolateStart_level, h]) hq⟩

/-- Witness of C5: a move, a timer tick, a stroke, a poll, a second move and the end of the
stroke. -/
theorem C5_window_size_STRONG_witness :
    ∃ s1,
      runCalls ratEnv
          [.pointerMove (mouseAt 6 8), .interpolatePollAndPaint, .interpolateStroke,
            .interpolatePoll, .pointerMove (mouseAt 10 12), .interpolateEnd]
          (interpolateStart ratEnv ⟨2, 4⟩
            (setStabilizerLevel STRONG (pointerPressEvent (mouseAt 2 4) initial))).2 = some s1 ∧
        s1.mStabilizerLevel = STRONG ∧ s1.strokeQueue.length = 5 :=
  (C5_window_size_STRONG ratEnv
    (setStabilizerLevel STRONG (pointerPressEvent (mouseAt 2 4) initial)) ⟨2, 4⟩
    [.pointerMove (mouseAt 6 8), .interpolatePollAndPaint, .interpolateStroke,
      .interpolatePoll, .pointerMove (mouseAt 10 12), .interpolateEnd]
    (by decide!) (by simp [Call.keepsWindow])).2

/-- C6: with level STRONG and a non-empty window, `interpolateEnd()` stops the timer and then
performs exactly five poll+stroke cycles: there are states `s1 … s5`, each the result of one
cycle on the one before, starting from the state with the timer stopped, and `s5` is the
state on return, its timer not running.  With any other level `interpolateEnd()` only stops
the timer. -/
theorem C6_interpolateEnd (env : Env) (s : State) :
    (s.mStabilizerLevel = STRONG → s.strokeQueue ≠ [] →
      ∃ s1 s2 s3 s4 s5 : State,
        pollStrokeCycle env { s with timerActive := false } = some s1 ∧
        pollStrokeCycle env s1 = some s2 ∧
        pollStrokeCycle env s2 = some s3 ∧
        pollStrokeCycle env s3 = some s4 ∧
        pollStrokeCycle env s4 = some s5 ∧
        interpolateEnd env s = some s5 ∧ s5.timerActive = false) ∧
    (s.mStabilizerLevel ≠ STRONG →
      interpolateEnd env s = some { s with timerActive := false }) := by
  constructor
  · intro h hq
    obtain ⟨s1, hs1, hl1, hq1, ht1⟩ :=
      cycle_keeps_window env { s with timerActive := false } h hq
    have hne : ∀ t : State, t.strokeQueue.length = s.strokeQueue.length →
        t.strokeQueue ≠ [] := by
      intro t ht hnil
      rw [hnil] at ht
      exact hq (List.length_eq_zero.mp ht.symm)
    obtain ⟨s2, hs2, hl2, hq2, ht2⟩ := cycle_keeps_window env s1 hl1 (hne s1 hq1)
    obtain ⟨s3, hs3, hl3, hq3, ht3⟩ :=
      cycle_keeps_window env s2 hl2 (hne s2 (hq2.trans hq1))
    obtain ⟨s4, hs4, hl4, hq4, ht4⟩ :=
      cycle_keeps_window env s3 hl3 (hne s3 (hq3.trans (hq2.trans hq1)))
    obtain ⟨s5, hs5, _, _, ht5⟩ :=
      cycle_keeps_window env s4 hl4 (hne s4 (hq4.trans (hq3.trans (hq2.trans hq1))))
    refine ⟨s1, s2, s3, s4, s5, hs1, hs2, hs3, hs4, hs5, ?_, ?_⟩
    · rw [interpolateEnd_of_STRONG env s h hq, drainLoop_succ, hs1, Option.some_bind,
        drainLoop_succ, hs2, Option.some_bind, drainLoop_succ, hs3, Option.some_bind,
        drainLoop_succ, hs4, Option.some_bind, drainLoop_succ, hs5, Option.some_bind,
        drainLoop]
    · rw [ht5, ht4, ht3, ht2, ht1]
  · intro h
    simp [interpolateEnd, h]

/-- Witness of C6: ending the STRONG stroke `strongSample`. -/
theorem C6_interpolateEnd_witness :
    strongSample.mStabilizerLevel = STRONG ∧ strongSample.strokeQueue ≠ [] ∧
      ∃ s5 : State, interpolateEnd ratEnv strongSample = some s5 ∧ s5.timerActive = false :=
  ⟨by decide!, by decide!,
    match (C6_interpolateEnd ratEnv strongSample).1 (by decide!) (by decide!) with
    | ⟨_, _, _, _, s5, _, _, _, _, _, hend, htimer⟩ => ⟨s5, hend, htimer⟩⟩

/-! ### SIMPLE mode -/

theorem QPointF.eq_iff (a b : QPointF) : a = b ↔ a.x = b.x ∧ a.y = b.y := by
  cases a; cases b; simp

@[simp]
theorem QPointF.add_x (a b : QPointF) : (a + b).x = a.x + b.x := rfl
@[simp]
theorem QPointF.add_y (a b : QPointF) : (a + b).y = a.y + b.y := rfl
@[simp]
theorem QPointF.sub_x (a b : QPointF) : (a - b).x = a.x - b.x := rfl
@[simp]
theorem QPointF.sub_y (a b : QPointF) : (a - b).y = a.y - b.y := rfl
@[simp]
theorem QPointF.mul_x (a : QPointF) (c : ℚ) : (a * c).x = a.x * c := rfl
@[simp]
theorem QPointF.mul_y (a : QPointF) (c : ℚ) : (a * c).y = a.y * c := rfl
@[simp]
theorem QPointF.div_x (a : QPointF) (c : ℚ) : (a / c).x = a.x / c := rfl
@[simp]
theorem QPointF.div_y (a : QPointF) (c : ℚ) : (a / c).y = a.y / c := rfl

theorem QPointF.mul_one (a : QPointF) : a * (1 : ℚ) = a := by
  simp [QPointF.eq_iff]

theorem scaleThreshold_lt : scaleThreshold < 1 / 100 := by
  norm_num [scaleThreshold]

theorem interpolateStroke_of_SIMPLE (env : Env) (s : State)
    (h : s.mStabilizerLevel = SIMPLE) :
    interpolateStroke env s = tangentInpolOp env [] s := by
  simp [interpolateStroke, h]

/-- The branch of `tangentInpolOp` taken once a tangent is cached, or while the points are
too close to seed one. -/
theorem tangentInpolOp_continue (env : Env) (s : State)
    (hc : ¬ (¬ s.mHasTangent ∧ env.length s.mLastPixel s.mCurrentPixel * 3 > scaleThreshold)) :
    tangentInpolOp env [] s =
      ([s.mLastPixel,
          s.mLastPixel + s.m_previousTangent * (env.length s.mLastPixel s.mCurrentPixel * 3),
          s.mCurrentPixel -
            (if env.length s.mLastPixel s.mCurrentPixel * 3 = 0 then (⟨0, 0⟩ : QPointF)
              else (s.mCurrentPixel -
                  (s.mLastPixel +
                    s.m_previousTangent * (env.length s.mLastPixel s.mCurrentPixel * 3))) /
                (3 * (env.length s.mLastPixel s.mCurrentPixel * 3))) *
              (env.length s.mLastPixel s.mCurrentPixel * 3),
          s.mCurrentPixel],
        { s with
          m_previousTangent :=
            if env.length s.mLastPixel s.mCurrentPixel * 3 = 0 then (⟨0, 0⟩ : QPointF)
            else (s.mCurrentPixel -
                (s.mLastPixel +
                  s.m_previousTangent * (env.length s.mLastPixel s.mCurrentPixel * 3))) /
              (3 * (env.length s.mLastPixel s.mCurrentPixel * 3))
          previousTime := env.elapsed }) := by
  unfold tangentInpolOp
  simp only [if_neg hc, List.nil_append, QPointF.mul_one]

/-- The seeding branch of `tangentInpolOp`. -/
theorem tangentInpolOp_seed (env : Env) (s : State)
    (hc : ¬ s.mHasTangent ∧ env.length s.mLastPixel s.mCurrentPixel * 3 > scaleThreshold) :
    tangentInpolOp env [] s =
      ([],
        { s with
          mHasTangent := true
          m_previousTangent :=
            if env.length ⟨0, 0⟩
                ((s.mCurrentPixel - s.mLastPixel) /
                  (3 * (env.length s.mLastPixel s.mCurrentPixel * 3))) < 2
            then (⟨0, 0⟩ : QPointF)
            else (s.mCurrentPixel - s.mLastPixel) /
              (3 * (env.length s.mLastPixel s.mCurrentPixel * 3))
          previousTime := env.elapsed }) := by
  unfold tangentInpolOp
  simp only [if_pos hc, QPointF.mul_one]
  split_ifs <;> rfl

/-- C7: SIMPLE subsequent segments.  With level SIMPLE and a tangent cached, and with
`scaleFactor = 3 * |currentPixel - lastPixel|`, `interpolateStroke()` returns
`[lastPixel, c1, c2, currentPixel]` where `c1 = lastPixel + previousTangent * scaleFactor`,
`newTangent = (currentPixel - c1) / (3 * scaleFactor)` (the zero vector if `scaleFactor` is
zero) and `c2 = currentPixel - newTangent * scaleFactor`; afterwards
`previousTangent = newTangent` (and only the recorded time changes besides). -/
theorem C7_tangent_segment_SIMPLE (env : Env) (s : State)
    (h : s.mStabilizerLevel = SIMPLE) (ht : s.mHasTangent = true) :
    let scaleFactor : ℚ := 3 * env.length s.mLastPixel s.mCurrentPixel
    let c1 : QPointF := s.mLastPixel + s.m_previousTangent * scaleFactor
    let newTangent : QPointF :=
      if scaleFactor = 0 then ⟨0, 0⟩ else (s.mCurrentPixel - c1) / (3 * scaleFactor)
    let c2 : QPointF := s.mCurrentPixel - newTangent * scaleFactor
    interpolateStroke env s =
      ([s.mLastPixel, c1, c2, s.mCurrentPixel],
        { s with m_previousTangent := newTangent, previousTime := env.elapsed }) := by
  intro scaleFactor c1 newTangent c2
  have hsf : env.length s.mLastPixel s.mCurrentPixel * 3 = scaleFactor := mul_comm _ _
  rw [interpolateStroke_of_SIMPLE env s h, tangentInpolOp_continue env s (by simp [ht]), hsf]

/-- Witness of C7: the second `interpolateStroke()` of a SIMPLE stroke along the x axis. -/
theorem C7_tangent_segment_SIMPLE_witness :
    tangentSample.mStabilizerLevel = SIMPLE ∧ tangentSample.mHasTangent = true ∧
      (interpolateStroke ratEnv tangentSample).1 =
        [⟨5, 0⟩, ⟨5, 0⟩, ⟨10, 0⟩, ⟨25 / 2, 0⟩] :=
  ⟨by decide!, by decide!,
    (congrArg Prod.fst
      (C7_tangent_segment_SIMPLE ratEnv tangentSample (by decide!) (by decide!))).trans
      (by decide!)⟩

/-- C8: SIMPLE tangent seeding.  With level SIMPLE, no tangent cached and
`scaleFactor = 3 * |currentPixel - lastPixel|` above 0.01, `interpolateStroke()` sets
`hasTangent`, and the cached tangent is the zero vector when the candidate
`(currentPixel - lastPixel) / (3 * scaleFactor)` has magnitude below 2, and the candidate
otherwise. -/
theorem C8_tangent_seed_SIMPLE (env : Env) (s : State)
    (h : s.mStabilizerLevel = SIMPLE) (ht : s.mHasTangent = false)
    (hs : 3 * env.length s.mLastPixel s.mCurrentPixel > 1 / 100) :
    let scaleFactor : ℚ := 3 * env.length s.mLastPixel s.mCurrentPixel
    let candidate : QPointF := (s.mCurrentPixel - s.mLastPixel) / (3 * scaleFactor)
    (interpolateStroke env s).2.mHasTangent = true ∧
      (env.length ⟨0, 0⟩ candidate < 2 →
        (interpolateStroke env s).2.m_previousTangent = ⟨0, 0⟩) ∧
      (¬ env.length ⟨0, 0⟩ candidate < 2 →
        (interpolateStroke env s).2.m_previousTangent = candidate) := by
  intro scaleFactor candidate
  have hsf : env.length s.mLastPixel s.mCurrentPixel * 3 = scaleFactor := mul_comm _ _
  have hc : ¬ s.mHasTangent ∧ env.length s.mLastPixel s.mCurrentPixel * 3 > scaleThreshold := by
    refine ⟨by simp [ht], ?_⟩
    rw [hsf]
    exact lt_trans scaleThreshold_lt hs
  rw [interpolateStroke_of_SIMPLE env s h, tangentInpolOp_seed env s hc, hsf]
  refine ⟨rfl, ?_, ?_⟩
  · intro hsmall
    exact if_pos hsmall
  · intro hbig
    exact if_neg hbig

/-- Witness of C8: the first `interpolateStroke()` of a SIMPLE stroke from (0,0) to (5,0):
`scaleFactor` is 15, the candidate `(1/9, 0)` has magnitude below 2, the cached tangent is
zero. -/
theorem C8_tangent_seed_SIMPLE_witness :
    seedSample.mStabilizerLevel = SIMPLE ∧ seedSample.mHasTangent = false ∧
      3 * ratEnv.length seedSample.mLastPixel seedSample.mCurrentPixel > 1 / 100 ∧
      (interpolateStroke ratEnv seedSample).2.mHasTangent = true ∧
      (interpolateStroke ratEnv seedSample).2.m_previousTangent = ⟨0, 0⟩ :=
  ⟨by decide!, by decide!, by decide!,
    (C8_tangent_seed_SIMPLE ratEnv seedSample (by decide!) (by decide!) (by decide!)).1,
    (C8_tangent_seed_SIMPLE ratEnv seedSample (by decide!) (by decide!) (by decide!)).2.1
      (by decide!)⟩

theorem ratLength_horizontal (a b : ℚ) : ratLength ⟨a, 0⟩ ⟨b, 0⟩ = |b - a| := by
  simp [ratLength, Rat.sqrt_eq]

theorem pointerMoveEvent_SimpleAt (env : Env) (event : PointerEvent) (s : State)
    (last cur tangent : QPointF) (hasTangent started : Bool)
    (h : SimpleAt s last cur hasTangent tangent started) :
    SimpleAt (pointerMoveEvent env event s) cur
      ⟨(event.posF.x + cur.x) / 2, (event.posF.y + cur.y) / 2⟩ hasTangent tangent started := by
  obtain ⟨hl, -, hcur, ht, htan, hst⟩ := h
  simp only [SimpleAt, pointerMoveEvent, smoothMousePos, setPressure, hl, NONE, SIMPLE]
  split_ifs <;> simp_all

theorem pointerReleaseEvent_SimpleAt (env : Env) (event : PointerEvent) (s : State)
    (last cur tangent : QPointF) (hasTangent : Bool)
    (h : SimpleAt s last cur hasTangent tangent true) :
    SimpleAt (pointerReleaseEvent env event s) cur
      ⟨(event.posF.x + cur.x) / 2, (event.posF.y + cur.y) / 2⟩ hasTangent tangent false := by
  obtain ⟨hl, hcur, ht, htan, hc, -⟩ := pointerMoveEvent_SimpleAt env event s _ _ _ _ _ h
  have hst : s.mStrokeStarted = true := h.2.2.2.2.2
  simp only [pointerReleaseEvent, hst, if_true]
  exact ⟨hl, hcur, ht, htan, hc, rfl⟩

theorem interpolateStroke_seed_SimpleAt (env : Env) (s : State) (last cur tangent : QPointF)
    (started : Bool) (h : SimpleAt s last cur false tangent started)
    (hscale : scaleThreshold < env.length last cur * 3)
    (hsmall : env.length ⟨0, 0⟩ ((cur - last) / (3 * (env.length last cur * 3))) < 2) :
    (interpolateStroke env s).1 = [] ∧
      SimpleAt (interpolateStroke env s).2 last cur true ⟨0, 0⟩ started := by
  obtain ⟨hl, hlast, hcur, ht, htan, hst⟩ := h
  have hc : ¬ s.mHasTangent ∧ env.length s.mLastPixel s.mCurrentPixel * 3 > scaleThreshold := by
    rw [hlast, hcur, ht]; exact ⟨by simp, hscale⟩
  rw [interpolateStroke_of_SIMPLE env s hl, tangentInpolOp_seed env s hc, hlast, hcur,
    if_pos hsmall]
  exact ⟨rfl, hl, rfl, rfl, rfl, rfl, hst⟩

theorem interpolateStroke_continue_SimpleAt (env : Env) (s : State)
    (last cur tangent : QPointF) (hasTangent started : Bool)
    (h : SimpleAt s last cur hasTangent tangent started)
    (hc : hasTangent = true ∨ ¬ scaleThreshold < env.length last cur * 3) :
    (interpolateStroke env s).1 =
        [last, last + tangent * (env.length last cur * 3),
          cur -
            (if env.length last cur * 3 = 0 then (⟨0, 0⟩ : QPointF)
              else (cur - (last + tangent * (env.length last cur * 3))) /
                (3 * (env.length last cur * 3))) *
              (env.length last cur * 3),
          cur] ∧
      SimpleAt (interpolateStroke env s).2 last cur hasTangent
        (if env.length last cur * 3 = 0 then (⟨0, 0⟩ : QPointF)
          else (cur - (last + tangent * (env.length last cur * 3))) /
            (3 * (env.length last cur * 3))) started := by
  obtain ⟨hl, hlast, hcur, ht, htan, hst⟩ := h
  have hc2 :
      ¬ (¬ s.mHasTangent ∧ env.length s.mLastPixel s.mCurrentPixel * 3 > scaleThreshold) := by
    rw [hlast, hcur, ht]
    rcases hc with hc | hc
    · simp [hc]
    · exact fun hboth => hc hboth.2
  rw [interpolateStroke_of_SIMPLE env s hl, tangentInpolOp_continue env s hc2, hlast, hcur,
    htan]
  exact ⟨rfl, hl, rfl, rfl, ht, rfl, hst⟩

theorem simpleScenario_start (env : Env) (s0 : State) :
    SimpleAt
      (interpolateStart env ⟨0, 0⟩
        (setStabilizerLevel SIMPLE (pointerPressEvent (mouseAt 0 0) s0))).2
      ⟨0, 0⟩ ⟨0, 0⟩ false s0.m_previousTangent true := by
  simp [SimpleAt, interpolateStart, setStabilizerLevel, pointerPressEvent, reset, setPressure,
    mouseAt, SIMPLE, Qt.NoButton]

theorem QPointF.mk_add_mk (a b c d : ℚ) :
    (⟨a, b⟩ : QPointF) + ⟨c, d⟩ = ⟨a + c, b + d⟩ := rfl

theorem QPointF.mk_sub_mk (a b c d : ℚ) :
    (⟨a, b⟩ : QPointF) - ⟨c, d⟩ = ⟨a - c, b - d⟩ := rfl

theorem QPointF.mk_mul (a b c : ℚ) : (⟨a, b⟩ : QPointF) * c = ⟨a * c, b * c⟩ := rfl

theorem QPointF.mk_div (a b c : ℚ) : (⟨a, b⟩ : QPointF) / c = ⟨a / c, b / c⟩ := rfl

/-- Counterexample to C9 as stated: in the scenario the `interpolateStroke()` call after the
first move returns no points (it only seeds the tangent), so the calls do not yield three
4-point segments, and there is no last point of a first segment for the second to start
from. -/
theorem C9_scenario_counterexample :
    (simpleScenario ratEnv initial).1 = [] ∧
      ¬ ((simpleScenario ratEnv initial).1.length = 4 ∧
        (simpleScenario ratEnv initial).2.1.length = 4 ∧
        (simpleScenario ratEnv initial).2.2.length = 4 ∧
        (simpleScenario ratEnv initial).2.1[0]? = (simpleScenario ratEnv initial).1[3]?) := by
  decide!

/-- C9 (amended): in the end-to-end SIMPLE scenario (press at (0,0), moves to (10,0) and
(20,0), release at (20,0), `interpolateStroke()` after each move and after the release) the
first call returns no points, the second and the third call return the 4-point segments
`[(5,0), (5,0), (10,0), (25/2,0)]` and `[(25/2,0), (55/4,0), (185/12,0), (65/4,0)]`, and the
third segment starts at the last point of the second.  (`QLineF::length` is the distance
between the end points for segments on the x axis.) -/
theorem C9_scenario_segments (env : Env) (s0 : State)
    (hlen : ∀ a b : ℚ, env.length ⟨a, 0⟩ ⟨b, 0⟩ = |b - a|) :
    simpleScenario env s0 =
      ([], [⟨5, 0⟩, ⟨5, 0⟩, ⟨10, 0⟩, ⟨25 / 2, 0⟩],
        [⟨25 / 2, 0⟩, ⟨55 / 4, 0⟩, ⟨185 / 12, 0⟩, ⟨65 / 4, 0⟩]) := by
  have h0 := simpleScenario_start env s0
  have h1 := pointerMoveEvent_SimpleAt env (mouseAt 10 0) _ _ _ _ _ _ h0
  have e1 : (⟨((mouseAt 10 0).posF.x + 0) / 2, ((mouseAt 10 0).posF.y + 0) / 2⟩ : QPointF)
      = ⟨5, 0⟩ := by
    norm_num [mouseAt]
  rw [e1] at h1
  have L1 : env.length ⟨0, 0⟩ ⟨5, 0⟩ = 5 := by rw [hlen]; norm_num
  have L1c : env.length ⟨0, 0⟩ ⟨1 / 9, 0⟩ = 1 / 9 := by
    rw [hlen, sub_zero, abs_of_pos (by norm_num)]
  obtain ⟨r1, h2⟩ := interpolateStroke_seed_SimpleAt env _ _ _ _ _ h1
    (by rw [L1]; norm_num [scaleThreshold])
    (by
      rw [L1]
      norm_num [QPointF.mk_sub_mk, QPointF.mk_div, L1c])
  have h3 := pointerMoveEvent_SimpleAt env (mouseAt 20 0) _ _ _ _ _ _ h2
  have e3 : (⟨((mouseAt 20 0).posF.x + 5) / 2, ((mouseAt 20 0).posF.y + 0) / 2⟩ : QPointF)
      = ⟨25 / 2, 0⟩ := by
    norm_num [mouseAt]
  rw [e3] at h3
  have L2 : env.length ⟨5, 0⟩ ⟨25 / 2, 0⟩ = 15 / 2 := by
    rw [hlen, abs_of_pos (by norm_num)]; norm_num
  obtain ⟨r2, h4⟩ := interpolateStroke_continue_SimpleAt env _ _ _ _ _ _ h3 (Or.inl rfl)
  rw [L2] at r2 h4
  have e4 : (if (15 / 2 : ℚ) * 3 = 0 then (⟨0, 0⟩ : QPointF)
      else (⟨25 / 2, 0⟩ - (⟨5, 0⟩ + (⟨0, 0⟩ : QPointF) * ((15 / 2 : ℚ) * 3))) /
        (3 * ((15 / 2 : ℚ) * 3))) = ⟨1 / 9, 0⟩ := by
    norm_num [QPointF.mk_sub_mk, QPointF.mk_div, QPointF.mk_add_mk, QPointF.mk_mul]
  rw [e4] at r2 h4
  have h5 := pointerReleaseEvent_SimpleAt env (mouseAt 20 0) _ _ _ _ _ h4
  have e5 :
      (⟨((mouseAt 20 0).posF.x + 25 / 2) / 2, ((mouseAt 20 0).posF.y + 0) / 2⟩ : QPointF)
      = ⟨65 / 4, 0⟩ := by
    norm_num [mouseAt]
  rw [e5] at h5
  have L3 : env.length ⟨25 / 2, 0⟩ ⟨65 / 4, 0⟩ = 15 / 4 := by
    rw [hlen, abs_of_pos (by norm_num)]; norm_num
  obtain ⟨r3, -⟩ := interpolateStroke_continue_SimpleAt env _ _ _ _ _ _ h5 (Or.inl rfl)
  rw [L3] at r3
  simp only [simpleScenario]
  rw [r1, r2, r3]
  norm_num [QPointF.mk_sub_mk, QPointF.mk_div, QPointF.mk_add_mk, QPointF.mk_mul]

/-- Witness of C9 (amended): the scenario from the constructed state, with `ratLength`. -/
theorem C9_scenario_segments_witness :
    (∀ a b : ℚ, ratEnv.length ⟨a, 0⟩ ⟨b, 0⟩ = |b - a|) ∧
      simpleScenario ratEnv initial =
        ([], [⟨5, 0⟩, ⟨5, 0⟩, ⟨10, 0⟩, ⟨25 / 2, 0⟩],
          [⟨25 / 2, 0⟩, ⟨55 / 4, 0⟩, ⟨185 / 12, 0⟩, ⟨65 / 4, 0⟩]) :=
  ⟨ratLength_horizontal, C9_scenario_segments ratEnv initial ratLength_horizontal⟩

/-! ### Zero-movement strokes -/

theorem half_add_self (p : QPointF) : (⟨(p.x + p.x) / 2, (p.y + p.y) / 2⟩ : QPointF) = p := by
  rw [QPointF.eq_iff]
  constructor <;> (simp only; ring)

theorem pointerPressEvent_fields (event : PointerEvent) (s : State) :
    (pointerPressEvent event s).mStabilizerLevel = -1 ∧
      (pointerPressEvent event s).mLastPixel = event.posF ∧
      (pointerPressEvent event s).mCurrentPixel = event.posF ∧
      (pointerPressEvent event s).mHasTangent = false ∧
      (pointerPressEvent event s).mStrokeStarted = true ∧
      (pointerPressEvent event s).strokeQueue = [] := by
  simp only [pointerPressEvent, reset, setPressure]
  split_ifs <;> simp

theorem pointerReleaseEvent_of_started (env : Env) (event : PointerEvent) (s : State)
    (h : s.mStrokeStarted = true) :
    pointerReleaseEvent env event s =
      { pointerMoveEvent env event s with mStrokeStarted := false } := by
  simp [pointerReleaseEvent, h]

theorem interpolateStart_of_NONE (env : Env) (firstPoint : QPointF) (s : State)
    (h : s.mStabilizerLevel = NONE) :
    interpolateStart env firstPoint s =
      (firstPoint, { s with strokeQueue := [], pressureQueue := [], mLastPixel := firstPoint }) := by
  simp [interpolateStart, h, NONE, SIMPLE, STRONG]

theorem zeroMovement_NONE (env : Env) (press release : PointerEvent) (s0 : State)
    (hr : release.posF = press.posF) :
    (zeroMovement env NONE press release s0).mStabilizerLevel = NONE ∧
      (zeroMovement env NONE press release s0).mLastPixel = press.posF ∧
      (zeroMovement env NONE press release s0).mCurrentPixel = press.posF := by
  obtain ⟨-, -, hcur, -, hst, -⟩ := pointerPressEvent_fields press (reset s0)
  have hstart :=
    interpolateStart_of_NONE env press.posF
      (setStabilizerLevel NONE (pointerPressEvent press (reset s0))) rfl
  obtain ⟨hl, hlast, hc⟩ :=
    pointerMoveEvent_of_NONE env release
      (interpolateStart env press.posF
        (setStabilizerLevel NONE (pointerPressEvent press (reset s0)))).2
      (by rw [interpolateStart_level]; rfl)
  rw [zeroMovement, pointerReleaseEvent_of_started _ _ _ (by rw [hstart]; exact hst)]
  refine ⟨hl, ?_, ?_⟩
  · rw [show _ = _ from hlast, hstart]; exact hcur
  · rw [show _ = _ from hc, hr]

theorem zeroMovement_SIMPLE (env : Env) (press release : PointerEvent) (s0 : State)
    (hr : release.posF = press.posF) :
    ∃ tangent,
      SimpleAt (zeroMovement env SIMPLE press release s0) press.posF press.posF false tangent
        false := by
  obtain ⟨-, hlast, hcur, ht, hst, -⟩ := pointerPressEvent_fields press (reset s0)
  have hstart :
      SimpleAt
        (interpolateStart env press.posF
          (setStabilizerLevel SIMPLE (pointerPressEvent press (reset s0)))).2
        press.posF press.posF false (pointerPressEvent press (reset s0)).m_previousTangent
        true := by
    simp [SimpleAt, interpolateStart, setStabilizerLevel, SIMPLE, hcur, ht, hst]
  have hrel := pointerReleaseEvent_SimpleAt env release _ _ _ _ _ hstart
  rw [hr, half_add_self] at hrel
  exact ⟨_, hrel⟩

theorem zeroMovement_STRONG (env : Env) (press release : PointerEvent) (s0 : State)
    (hr : release.posF = press.posF) :
    (zeroMovement env STRONG press release s0).mStabilizerLevel = STRONG ∧
      (zeroMovement env STRONG press release s0).mLastPixel = press.posF ∧
      (zeroMovement env STRONG press release s0).mLastInterpolated = press.posF ∧
      (zeroMovement env STRONG press release s0).mCurrentPixel = press.posF ∧
      (zeroMovement env STRONG press release s0).strokeQueue =
        [press.posF, press.posF, press.posF, press.posF, press.posF] := by
  obtain ⟨-, -, hcur, -, hst, -⟩ := pointerPressEvent_fields press (reset s0)
  have hstart :=
    interpolateStart_of_STRONG env press.posF
      (setStabilizerLevel STRONG (pointerPressEvent press (reset s0))) rfl
  obtain ⟨hl, hq, hlast, hint, hc⟩ :=
    pointerMoveEvent_STRONG_fields env release
      (interpolateStart env press.posF
        (setStabilizerLevel STRONG (pointerPressEvent press (reset s0)))).2
      (by rw [interpolateStart_level]; rfl)
  rw [zeroMovement, pointerReleaseEvent_of_started _ _ _ (by rw [hstart]; exact hst)]
  refine ⟨hl, ?_, ?_, ?_, ?_⟩
  · rw [show _ = _ from hlast, hstart]; exact hcur
  · rw [show _ = _ from hint, hstart]; exact hcur
  · rw [show _ = _ from hc, hstart, hr]; exact half_add_self press.posF
  · rw [show _ = _ from hq, hstart]

theorem interpolateStroke_level (env : Env) (s : State) :
    (interpolateStroke env s).2.mStabilizerLevel = s.mStabilizerLevel := by
  simp only [interpolateStroke, tangentInpolOp, meanInpolOp, noInpolOp, setPressure]
  split_ifs <;> rfl

theorem interpolateStroke_strokeQueue (env : Env) (s : State) :
    (interpolateStroke env s).2.strokeQueue = s.strokeQueue := by
  simp only [interpolateStroke, tangentInpolOp, meanInpolOp, noInpolOp, setPressure]
  split_ifs <;> rfl

theorem pointerMoveEvent_level (env : Env) (event : PointerEvent) (s : State) :
    (pointerMoveEvent env event s).mStabilizerLevel = s.mStabilizerLevel := by
  simp only [pointerMoveEvent, smoothMousePos, setPressure]
  split_ifs <;> rfl

theorem pointerReleaseEvent_level (env : Env) (event : PointerEvent) (s : State) :
    (pointerReleaseEvent env event s).mStabilizerLevel = s.mStabilizerLevel := by
  simp only [pointerReleaseEvent]
  split_ifs
  · exact pointerMoveEvent_level env event s
  · rfl

theorem interpolatePoll_level (s s1 : State) (h : interpolatePoll s = some s1) :
    s1.mStabilizerLevel = s.mStabilizerLevel ∧
      s1.strokeQueue.length = s.strokeQueue.length := by
  unfold interpolatePoll at h
  split at h
  · exact absurd h (by simp)
  · rename_i oldest rest hq
    cases h
    simp [hq]

theorem pollStrokeCycle_level (env : Env) (s s1 : State)
    (h : pollStrokeCycle env s = some s1) :
    s1.mStabilizerLevel = s.mStabilizerLevel ∧
      s1.strokeQueue.length = s.strokeQueue.length := by
  unfold pollStrokeCycle at h
  cases hp : interpolatePoll s with
  | none => rw [hp] at h; exact absurd h (by simp)
  | some s0 =>
    rw [hp] at h
    cases h
    obtain ⟨hl, hq⟩ := interpolatePoll_level s s0 hp
    exact ⟨by rw [interpolateStroke_level, hl], by rw [interpolateStroke_strokeQueue, hq]⟩

theorem drainLoop_level (env : Env) :
    ∀ (i : Nat) (s s1 : State), drainLoop env i s = some s1 →
      s1.mStabilizerLevel = s.mStabilizerLevel ∧
        s1.strokeQueue.length = s.strokeQueue.length := by
  intro i
  induction i with
  | zero => intro s s1 h; cases h; exact ⟨rfl, rfl⟩
  | succ i ih =>
    intro s s1 h
    rw [drainLoop_succ] at h
    cases hc : pollStrokeCycle env s with
    | none => rw [hc] at h; exact absurd h (by simp)
    | some s0 =>
      rw [hc, Option.some_bind] at h
      obtain ⟨hl0, hq0⟩ := pollStrokeCycle_level env s s0 hc
      obtain ⟨hl1, hq1⟩ := ih s0 s1 h
      exact ⟨hl1.trans hl0, hq1.trans hq0⟩

theorem interpolatePollAndPaint_level (env : Env) (s s1 : State)
    (h : interpolatePollAndPaint env s = some s1) :
    s1.mStabilizerLevel = s.mStabilizerLevel ∧
      s1.strokeQueue.length = s.strokeQueue.length := by
  by_cases hq : s.strokeQueue = []
  · simp [interpolatePollAndPaint, hq] at h
    subst h
    exact ⟨rfl, rfl⟩
  · rw [interpolatePollAndPaint_eq_cycle env s hq] at h
    exact pollStrokeCycle_level env s s1 h

theorem interpolateEnd_level (env : Env) (s s1 : State)
    (h : interpolateEnd env s = some s1) :
    s1.mStabilizerLevel = s.mStabilizerLevel ∧
      s1.strokeQueue.length = s.strokeQueue.length := by
  by_cases hl : s.mStabilizerLevel = STRONG
  · by_cases hq : s.strokeQueue = []
    · simp only [interpolateEnd, hq, List.isEmpty_nil, not_true_eq_false, if_false,
        ite_self, Option.some.injEq] at h
      subst h
      exact ⟨rfl, hq ▸ rfl⟩
    · rw [interpolateEnd_of_STRONG env s hl hq] at h
      exact drainLoop_level env 5 { s with timerActive := false } s1 h
  · simp [interpolateEnd, hl] at h
    subst h
    exact ⟨rfl, rfl⟩

theorem applyCall_keepsLevel (env : Env) (call : Call) (s s1 : State)
    (hc : call.keepsLevel = true) (h : applyCall env call s = some s1) :
    s1.mStabilizerLevel = s.mStabilizerLevel := by
  cases call with
  | reset => simp [Call.keepsLevel] at hc
  | pointerPress _ => simp [Call.keepsLevel] at hc
  | setStabilizerLevel _ => simp [Call.keepsLevel] at hc
  | setPressure p => cases h; rfl
  | pointerMove event => cases h; exact pointerMoveEvent_level env event s
  | pointerRelease event => cases h; exact pointerReleaseEvent_level env event s
  | interpolateStart p => cases h; exact interpolateStart_level env p s
  | interpolatePoll => exact (interpolatePoll_level s s1 h).1
  | interpolatePollAndPaint => exact (interpolatePollAndPaint_level env s s1 h).1
  | interpolateStroke => cases h; exact interpolateStroke_level env s
  | interpolateEnd => exact (interpolateEnd_level env s s1 h).1

theorem runCalls_keepsLevel (env : Env) :
    ∀ (calls : List Call) (s s1 : State), (∀ call ∈ calls, call.keepsLevel = true) →
      runCalls env calls s = some s1 → s1.mStabilizerLevel = s.mStabilizerLevel := by
  intro calls
  induction calls with
  | nil => intro s s1 _ h; cases h; rfl
  | cons call calls ih =>
    intro s s1 hc h
    rw [runCalls] at h
    cases ha : applyCall env call s with
    | none => rw [ha] at h; exact absurd h (by simp)
    | some s0 =>
      rw [ha, Option.some_bind] at h
      exact (ih s0 s1 (fun c hmem => hc c (List.mem_cons_of_mem _ hmem)) h).trans
        (applyCall_keepsLevel env call s s0 (hc call (List.mem_cons_self _ _)) ha)

/-- Counterexample to C11 as stated: `setStabilizerLevel(SIMPLE)` followed by a press leaves
the level unset (`-1`), not SIMPLE, and the next move is passed through unsmoothed: it ends
at the raw position (10, 0) instead of the SIMPLE midpoint (5, 0). -/
theorem C11_level_after_press_counterexample :
    (pointerPressEvent (mouseAt 0 0) (setStabilizerLevel SIMPLE initial)).mStabilizerLevel
        = -1 ∧
      (pointerPressEvent (mouseAt 0 0) (setStabilizerLevel SIMPLE initial)).mStabilizerLevel
        ≠ SIMPLE ∧
      (pointerMoveEvent ratEnv (mouseAt 10 0)
        (pointerPressEvent (mouseAt 0 0) (setStabilizerLevel SIMPLE initial))).mCurrentPixel
        = ⟨10, 0⟩ := by
  decide!

/-- C11 (amended): `setStabilizerLevel(L)` sets the active level until the next `reset()`.
A press calls `reset()`, so a level selected before the press is unset (`-1`) afterwards; a
level `L` selected after the press is the active level, and it is still `L` after every
sequence of further calls other than `reset`, `pointerPressEvent` and
`setStabilizerLevel`. -/
theorem C11_level_selection (env : Env) (level : Int) (event : PointerEvent) (s s1 : State)
    (calls : List Call) (hc : ∀ call ∈ calls, call.keepsLevel = true)
    (hrun : runCalls env calls (setStabilizerLevel level (pointerPressEvent event s)) = some s1) :
    (pointerPressEvent event (setStabilizerLevel level s)).mStabilizerLevel = -1 ∧
      (setStabilizerLevel level (pointerPressEvent event s)).mStabilizerLevel = level ∧
      s1.mStabilizerLevel = level := by
  refine ⟨?_, rfl, runCalls_keepsLevel env calls _ s1 hc hrun⟩
  exact (pointerPressEvent_fields event _).1

/-- Witness of C11 (amended): a SIMPLE stroke with the level selected after the press. -/
theorem C11_level_selection_witness :
    ∃ s1 : State,
      runCalls ratEnv
          [.interpolateStart ⟨0, 0⟩, .pointerMove (mouseAt 10 0), .interpolateStroke,
            .pointerRelease (mouseAt 20 0), .interpolateStroke, .interpolateEnd]
          (setStabilizerLevel SIMPLE (pointerPressEvent (mouseAt 0 0) initial)) = some s1 ∧
        s1.mStabilizerLevel = SIMPLE :=
  match Option.isSome_iff_exists.mp
      (show (runCalls ratEnv
          [.interpolateStart ⟨0, 0⟩, .pointerMove (mouseAt 10 0), .interpolateStroke,
            .pointerRelease (mouseAt 20 0), .interpolateStroke, .interpolateEnd]
          (setStabilizerLevel SIMPLE (pointerPressEvent (mouseAt 0 0) initial))).isSome = true
        by decide!) with
  | ⟨s1, h1⟩ =>
    ⟨s1, h1,
      (C11_level_selection ratEnv SIMPLE (mouseAt 0 0) initial s1
        [.interpolateStart ⟨0, 0⟩, .pointerMove (mouseAt 10 0), .interpolateStroke,
          .pointerRelease (mouseAt 20 0), .interpolateStroke, .interpolateEnd]
        (by simp [Call.keepsLevel]) h1).2.2⟩

/-- C14: `reset()` is idempotent and total: `reset (reset s) = reset s` for every state `s`,
and `reset s` has empty `strokeQueue` and `pressureQueue`, `started = false`,
`hasTangent = false`, the timer stopped and the stabilization level unset (`-1`). -/
theorem C14_reset_idempotent (s : State) :
    reset (reset s) = reset s ∧
      (reset s).strokeQueue = [] ∧ (reset s).pressureQueue = [] ∧
      (reset s).mStrokeStarted = false ∧ (reset s).mHasTangent = false ∧
      (reset s).timerActive = false ∧ (reset s).mStabilizerLevel = -1 :=
  ⟨rfl, rfl, rfl, rfl, rfl, rfl, rfl⟩

/-- Counterexample to C15 as stated: with level NONE active, no tablet in use and no stroke
started, a mouse move leaves the stored pressure at 0. -/
theorem C15_mouse_pressure_counterexample :
    (setStabilizerLevel NONE initial).mTabletInUse = false ∧
      (mouseAt 1 0).isTabletEvent = false ∧
      (pointerMoveEvent ratEnv (mouseAt 1 0) (setStabilizerLevel NONE initial)).mTabletPressure
        = 0 ∧
      (pointerMoveEvent ratEnv (mouseAt 1 0) (setStabilizerLevel NONE initial)).mTabletPressure
        ≠ 1 := by
  decide!

/-- C15 (amended): when `pointerMoveEvent` is routed through the smoothing pre-filter (level
NONE, SIMPLE or STRONG) with a non-tablet sample and no tablet in use, the stored pressure
after the call is 1 if a stroke is started, whatever it was before; if no stroke is started
the stored pressure is unchanged. -/
theorem C15_mouse_pressure (env : Env) (event : PointerEvent) (s : State)
    (hl : s.mStabilizerLevel = NONE ∨ s.mStabilizerLevel = SIMPLE ∨
      s.mStabilizerLevel = STRONG)
    (he : event.isTabletEvent = false) (ht : s.mTabletInUse = false) :
    (s.mStrokeStarted = true → (pointerMoveEvent env event s).mTabletPressure = 1) ∧
      (s.mStrokeStarted = false →
        (pointerMoveEvent env event s).mTabletPressure = s.mTabletPressure) := by
  constructor
  · intro hs
    rcases hl with h | h | h <;>
      simp [pointerMoveEvent, smoothMousePos, setPressure, h, he, ht, hs, NONE, SIMPLE, STRONG]
  · intro hs
    rcases hl with h | h | h <;>
      simp [pointerMoveEvent, smoothMousePos, setPressure, h, he, ht, hs, NONE, SIMPLE, STRONG]

/-- Witness of C15 (amended): a mouse move in the STRONG stroke `strongSample`, whose stored
pressure is set to 3/10 beforehand. -/
theorem C15_mouse_pressure_witness :
    (setPressure (3 / 10) strongSample).mStrokeStarted = true ∧
      (pointerMoveEvent ratEnv (mouseAt 1 0) (setPressure (3 / 10) strongSample)).mTabletPressure
        = 1 :=
  ⟨by decide!,
    (C15_mouse_pressure ratEnv (mouseAt 1 0) (setPressure (3 / 10) strongSample)
      (Or.inr (Or.inr (by decide!))) rfl (by decide!)).1 (by decide!)⟩

/-- C18: STRONG pre-filter.  With level STRONG, `pointerMoveEvent` at the raw position `raw`
sets `currentPixel` to `(raw + lastInterpolated) / 2` (with the old `lastInterpolated`), sets
`lastInterpolated` and `lastPixel` to the old `currentPixel`, and leaves `strokeQueue`
unchanged. -/
theorem C18_prefilter_STRONG (env : Env) (event : PointerEvent) (s : State)
    (h : s.mStabilizerLevel = STRONG) :
    (pointerMoveEvent env event s).mCurrentPixel =
        ⟨(event.posF.x + s.mLastInterpolated.x) / 2,
          (event.posF.y + s.mLastInterpolated.y) / 2⟩ ∧
      (pointerMoveEvent env event s).mLastInterpolated = s.mCurrentPixel ∧
      (pointerMoveEvent env event s).mLastPixel = s.mCurrentPixel ∧
      (pointerMoveEvent env event s).strokeQueue = s.strokeQueue := by
  obtain ⟨-, hq, hlast, hint, hcur⟩ := pointerMoveEvent_STRONG_fields env event s h
  exact ⟨hcur, hint, hlast, hq⟩

/-- Witness of C18: a move to (7, 1) in the stroke `strongSample`, where
`lastInterpolated = (4, 6)` and `currentPixel = (6, 8)`. -/
theorem C18_prefilter_STRONG_witness :
    strongSample.mStabilizerLevel = STRONG ∧
      (pointerMoveEvent ratEnv (mouseAt 7 1) strongSample).mCurrentPixel = ⟨11 / 2, 7 / 2⟩ ∧
      (pointerMoveEvent ratEnv (mouseAt 7 1) strongSample).mLastInterpolated = ⟨6, 8⟩ :=
  ⟨by decide!,
    (C18_prefilter_STRONG ratEnv (mouseAt 7 1) strongSample (by decide!)).1.trans (by decide!),
    (C18_prefilter_STRONG ratEnv (mouseAt 7 1) strongSample (by decide!)).2.1.trans
      (by decide!)⟩

/-! ### Release, empty window, queue capacity -/

theorem interpolateStroke_SIMPLE_cases (env : Env) (s : State)
    (h : s.mStabilizerLevel = SIMPLE) :
    (interpolateStroke env s).1 = [] ∨
      ∃ c1 c2, (interpolateStroke env s).1 = [s.mLastPixel, c1, c2, s.mCurrentPixel] := by
  rw [interpolateStroke_of_SIMPLE env s h]
  by_cases hc :
      ¬ s.mHasTangent ∧ env.length s.mLastPixel s.mCurrentPixel * 3 > scaleThreshold
  · left
    rw [tangentInpolOp_seed env s hc]
  · right
    rw [tangentInpolOp_continue env s hc]
    exact ⟨_, _, rfl⟩

/-- Counterexample to C13 as stated: a release at (10, 0) of a STRONG stroke primed at (0, 0)
is followed by a segment ending at (5, 0); a release at (20, 0) of the SIMPLE stroke
`seedSample` (current position (5, 0)) is followed by a segment ending at (25/2, 0). -/
theorem C13_release_end_point_counterexample :
    primedSample.mStrokeStarted = true ∧
      (interpolateStroke ratEnv (pointerReleaseEvent ratEnv (mouseAt 10 0) primedSample)).1
        = [⟨0, 0⟩, ⟨0, 0⟩, ⟨0, 0⟩, ⟨5, 0⟩] ∧
      (interpolateStroke ratEnv (pointerReleaseEvent ratEnv (mouseAt 10 0) primedSample)).1[3]?
        ≠ some (mouseAt 10 0).posF ∧
      (interpolateStroke ratEnv
          (pointerReleaseEvent ratEnv (mouseAt 20 0) (interpolateStroke ratEnv seedSample).2)).1
        = [⟨5, 0⟩, ⟨5, 0⟩, ⟨10, 0⟩, ⟨25 / 2, 0⟩] := by
  decide!

/-- C13 (amended): `pointerReleaseEvent` always leaves the stroke marked not-started.  For a
stroke in progress, the next `interpolateStroke()` returns, with level NONE, the segment
`[currentPixel, currentPixel, position, position]`, ending at the released position; with
level STRONG a segment ending at the midpoint of the released position and the old
`lastInterpolated`; with level SIMPLE either nothing or a segment ending at the midpoint of
the released position and the old `currentPixel`. -/
theorem C13_release_end_point (env : Env) (event : PointerEvent) (s : State) :
    (pointerReleaseEvent env event s).mStrokeStarted = false ∧
    (s.mStrokeStarted = true → s.mStabilizerLevel = NONE →
      (interpolateStroke env (pointerReleaseEvent env event s)).1 =
        [s.mCurrentPixel, s.mCurrentPixel, event.posF, event.posF]) ∧
    (s.mStrokeStarted = true → s.mStabilizerLevel = STRONG →
      (interpolateStroke env (pointerReleaseEvent env event s)).1[3]? =
        some ⟨(event.posF.x + s.mLastInterpolated.x) / 2,
          (event.posF.y + s.mLastInterpolated.y) / 2⟩) ∧
    (s.mStrokeStarted = true → s.mStabilizerLevel = SIMPLE →
      (interpolateStroke env (pointerReleaseEvent env event s)).1 = [] ∨
      (interpolateStroke env (pointerReleaseEvent env event s)).1[3]? =
        some ⟨(event.posF.x + s.mCurrentPixel.x) / 2,
          (event.posF.y + s.mCurrentPixel.y) / 2⟩) := by
  refine ⟨rfl, ?_, ?_, ?_⟩
  · intro hs hl
    obtain ⟨hl2, hlast, hcur⟩ := pointerMoveEvent_of_NONE env event s hl
    have key :=
      interpolateStroke_of_NONE env
        { pointerMoveEvent env event s with mStrokeStarted := false } hl2
    rw [pointerReleaseEvent_of_started env event s hs]
    refine (congrArg Prod.fst key).trans ?_
    show [(pointerMoveEvent env event s).mLastPixel, (pointerMoveEvent env event s).mLastPixel,
      (pointerMoveEvent env event s).mCurrentPixel,
      (pointerMoveEvent env event s).mCurrentPixel] = _
    rw [hlast, hcur]
  · intro hs hl
    obtain ⟨hl2, -, -, -, hcur⟩ := pointerMoveEvent_STRONG_fields env event s hl
    have key :=
      interpolateStroke_of_STRONG env
        { pointerMoveEvent env event s with mStrokeStarted := false } hl2
    rw [pointerReleaseEvent_of_started env event s hs]
    refine (congrArg (fun r => r.1[3]?) key).trans ?_
    show some (pointerMoveEvent env event s).mCurrentPixel = _
    rw [hcur]
  · intro hs hl
    have hat : SimpleAt s s.mLastPixel s.mCurrentPixel s.mHasTangent s.m_previousTangent true :=
      ⟨hl, rfl, rfl, rfl, rfl, hs⟩
    obtain ⟨hl2, hlast, hcur, -⟩ := pointerReleaseEvent_SimpleAt env event s _ _ _ _ hat
    rcases interpolateStroke_SIMPLE_cases env _ hl2 with hnil | ⟨c1, c2, hseg⟩
    · exact Or.inl hnil
    · right
      rw [hseg, hcur]
      rfl

/-- Witness of C13 (amended): a release at (3, 4) of a NONE stroke started at (1, 2). -/
theorem C13_release_end_point_witness :
    (setStabilizerLevel NONE (pointerPressEvent (mouseAt 1 2) initial)).mStrokeStarted = true ∧
      (interpolateStroke ratEnv
          (pointerReleaseEvent ratEnv (mouseAt 3 4)
            (setStabilizerLevel NONE (pointerPressEvent (mouseAt 1 2) initial)))).1
        = [⟨1, 2⟩, ⟨1, 2⟩, ⟨3, 4⟩, ⟨3, 4⟩] :=
  ⟨by decide!,
    (C13_release_end_point ratEnv (mouseAt 3 4)
      (setStabilizerLevel NONE (pointerPressEvent (mouseAt 1 2) initial))).2.1
      (by decide!) (by decide!)⟩

/-- C12 (the code at the failing input): after construction and `setStabilizerLevel(STRONG)`
the window is empty, and `interpolateStroke()` nevertheless runs `meanInpolOp`: it returns
four points, the third being the quotient of the sums by `strokeQueue.size() = 0`, and
assigns that quotient to `lastPixel`. -/
theorem C12_mean_on_empty_window (env : Env) :
    runCalls env [.setStabilizerLevel STRONG] initial = some (setStabilizerLevel STRONG initial) ∧
      (setStabilizerLevel STRONG initial).strokeQueue.length = 0 ∧
      interpolateStroke env (setStabilizerLevel STRONG initial) =
        meanInpolOp [] 0 0 0 (setStabilizerLevel STRONG initial) ∧
      (interpolateStroke env (setStabilizerLevel STRONG initial)).1.length = 4 ∧
      (interpolateStroke env (setStabilizerLevel STRONG initial)).1 ≠ [] := by
  refine ⟨rfl, rfl, ?_, ?_, ?_⟩
  · simp [interpolateStroke, setStabilizerLevel, SIMPLE, STRONG]
  · rw [interpolateStroke_of_STRONG env _ rfl]; rfl
  · rw [interpolateStroke_of_STRONG env _ rfl]; simp

theorem shiftQueue_length (n : Nat) (hn : 0 < n) :
    ∀ q : List QPointF, (shiftQueue n q).length < n := by
  intro q
  induction q with
  | nil => simpa [shiftQueue] using hn
  | cons p q ih =>
    rw [shiftQueue]
    split_ifs with hge
    · exact ih
    · exact Nat.lt_of_not_ge hge

theorem pointerMoveEvent_queue (env : Env) (event : PointerEvent) (s : State) :
    (s.mStabilizerLevel = SIMPLE →
      (pointerMoveEvent env event s).strokeQueue.length ≤ env.STROKE_QUEUE_LENGTH) ∧
    (s.mStabilizerLevel ≠ SIMPLE →
      (pointerMoveEvent env event s).strokeQueue = s.strokeQueue) := by
  have hshift := shiftQueue_length env.STROKE_QUEUE_LENGTH env.STROKE_QUEUE_LENGTH_pos
    s.strokeQueue
  constructor
  · intro hl
    simp only [pointerMoveEvent, smoothMousePos, setPressure, hl, NONE, SIMPLE]
    split_ifs <;> simp <;> omega
  · intro hl
    simp only [pointerMoveEvent, smoothMousePos, setPressure]
    split_ifs <;> rfl

theorem smoothMousePos_queue_SIMPLE (env : Env) (pos : QPointF) (s : State)
    (hl : s.mStabilizerLevel = SIMPLE) :
    (smoothMousePos env pos s).strokeQueue.length ≤ env.STROKE_QUEUE_LENGTH := by
  have hshift := shiftQueue_length env.STROKE_QUEUE_LENGTH env.STROKE_QUEUE_LENGTH_pos
    s.strokeQueue
  simp only [smoothMousePos, setPressure, hl, NONE, SIMPLE]
  split_ifs <;> simp <;> omega

theorem pointerMoveEvent_queue_le (env : Env) (event : PointerEvent) (s : State)
    (h : s.strokeQueue.length ≤ max 5 env.STROKE_QUEUE_LENGTH) :
    (pointerMoveEvent env event s).strokeQueue.length ≤ max 5 env.STROKE_QUEUE_LENGTH := by
  by_cases hl : s.mStabilizerLevel = SIMPLE
  · exact le_trans ((pointerMoveEvent_queue env event s).1 hl) (le_max_right _ _)
  · rw [(pointerMoveEvent_queue env event s).2 hl]; exact h

theorem pointerReleaseEvent_queue_le (env : Env) (event : PointerEvent) (s : State)
    (h : s.strokeQueue.length ≤ max 5 env.STROKE_QUEUE_LENGTH) :
    (pointerReleaseEvent env event s).strokeQueue.length ≤ max 5 env.STROKE_QUEUE_LENGTH := by
  simp only [pointerReleaseEvent]
  split_ifs
  · exact pointerMoveEvent_queue_le env event s h
  · exact h

theorem interpolateStart_queue_le (env : Env) (firstPoint : QPointF) (s : State)
    (h : s.strokeQueue.length ≤ max 5 env.STROKE_QUEUE_LENGTH) :
    (interpolateStart env firstPoint s).2.strokeQueue.length ≤
      max 5 env.STROKE_QUEUE_LENGTH := by
  simp only [interpolateStart, enqueueTimes_eq]
  split_ifs
  · simp
  · simp [List.replicate]
  · simp
  · exact h

theorem applyCall_queue_le (env : Env) (call : Call) (s s1 : State)
    (h : s.strokeQueue.length ≤ max 5 env.STROKE_QUEUE_LENGTH)
    (ha : applyCall env call s = some s1) :
    s1.strokeQueue.length ≤ max 5 env.STROKE_QUEUE_LENGTH := by
  cases call with
  | reset => cases ha; simp [reset]
  | pointerPress event => cases ha; rw [(pointerPressEvent_fields event s).2.2.2.2.2]; simp
  | setStabilizerLevel _ => cases ha; exact h
  | setPressure p => cases ha; exact h
  | pointerMove event => cases ha; exact pointerMoveEvent_queue_le env event s h
  | pointerRelease event => cases ha; exact pointerReleaseEvent_queue_le env event s h
  | interpolateStart p => cases ha; exact interpolateStart_queue_le env p s h
  | interpolatePoll => rw [(interpolatePoll_level s s1 ha).2]; exact h
  | interpolatePollAndPaint => rw [(interpolatePollAndPaint_level env s s1 ha).2]; exact h
  | interpolateStroke => cases ha; rw [interpolateStroke_strokeQueue]; exact h
  | interpolateEnd => rw [(interpolateEnd_level env s s1 ha).2]; exact h

theorem runCalls_queue_le (env : Env) :
    ∀ (calls : List Call) (s s1 : State),
      s.strokeQueue.length ≤ max 5 env.STROKE_QUEUE_LENGTH →
      runCalls env calls s = some s1 →
      s1.strokeQueue.length ≤ max 5 env.STROKE_QUEUE_LENGTH := by
  intro calls
  induction calls with
  | nil => intro s s1 h hr; cases hr; exact h
  | cons call calls ih =>
    intro s s1 h hr
    rw [runCalls] at hr
    cases ha : applyCall env call s with
    | none => rw [ha] at hr; exact absurd hr (by simp)
    | some s0 =>
      rw [ha, Option.some_bind] at hr
      exact ih s0 s1 (applyCall_queue_le env call s s0 h ha) hr

theorem pollStrokeCycle_isSome (env : Env) (s : State) (hq : s.strokeQueue ≠ []) :
    (pollStrokeCycle env s).isSome = true := by
  obtain ⟨oldest, rest, hrest⟩ := List.exists_cons_of_ne_nil hq
  simp [pollStrokeCycle, interpolatePoll, hrest]

theorem applyCall_isSome (env : Env) (call : Call) (s : State)
    (hc : call ≠ .interpolatePoll) : (applyCall env call s).isSome = true := by
  cases call with
  | interpolatePoll => exact absurd rfl hc
  | interpolatePollAndPaint =>
    by_cases hq : s.strokeQueue = []
    · simp [applyCall, interpolatePollAndPaint, hq]
    · rw [applyCall, interpolatePollAndPaint_eq_cycle env s hq]
      exact pollStrokeCycle_isSome env s hq
  | interpolateEnd =>
    by_cases hl : s.mStabilizerLevel = STRONG
    · by_cases hq : s.strokeQueue = []
      · simp [applyCall, interpolateEnd, hq]
      · obtain ⟨s1, hs1, -⟩ :=
          drainLoop_keeps_window env 5 { s with timerActive := false } hl hq
        rw [applyCall, interpolateEnd_of_STRONG env s hl hq, hs1]
        rfl
    · simp [applyCall, interpolateEnd, hl]
  | reset => rfl
  | setPressure _ => rfl
  | pointerPress _ => rfl
  | pointerMove _ => rfl
  | pointerRelease _ => rfl
  | setStabilizerLevel _ => rfl
  | interpolateStart _ => rfl
  | interpolateStroke => rfl

theorem runCalls_isSome (env : Env) :
    ∀ (calls : List Call) (s : State), (∀ call ∈ calls, call ≠ .interpolatePoll) →
      (runCalls env calls s).isSome = true := by
  intro calls
  induction calls with
  | nil => intro s _; rfl
  | cons call calls ih =>
    intro s hc
    obtain ⟨s0, hs0⟩ := Option.isSome_iff_exists.mp
      (applyCall_isSome env call s (hc call (List.mem_cons_self _ _)))
    rw [runCalls, hs0, Option.some_bind]
    exact ih s0 (fun c hmem => hc c (List.mem_cons_of_mem _ hmem))

/-- C16: queue capacity invariant.  Starting from `reset()`, every sequence of calls that
contains no bare `interpolatePoll` runs through, and every state reached by a sequence of
calls (level changes in mid-stroke included) has at most `max(5, STROKE_QUEUE_LENGTH)`
positions in `strokeQueue`; after a SIMPLE pre-filter step the queue holds at most
`STROKE_QUEUE_LENGTH` positions, whatever it held before. -/
theorem C16_queue_capacity (env : Env) (calls : List Call) (s0 : State) :
    ((∀ call ∈ calls, call ≠ .interpolatePoll) →
      (runCalls env calls (reset s0)).isSome = true) ∧
    (∀ s1, runCalls env calls (reset s0) = some s1 →
      s1.strokeQueue.length ≤ max 5 env.STROKE_QUEUE_LENGTH) ∧
    (∀ (s : State) (pos : QPointF), s.mStabilizerLevel = SIMPLE →
      (smoothMousePos env pos s).strokeQueue.length ≤ env.STROKE_QUEUE_LENGTH) :=
  ⟨runCalls_isSome env calls (reset s0),
    fun s1 h => runCalls_queue_le env calls (reset s0) s1 (Nat.zero_le _) h,
    fun s pos hl => smoothMousePos_queue_SIMPLE env pos s hl⟩

/-- Witness of C16: a stroke whose level changes from STRONG to SIMPLE and back while the
window is filled. -/
theorem C16_queue_capacity_witness :
    ∃ s1 : State,
      runCalls ratEnv
          [.pointerPress (mouseAt 0 0), .setStabilizerLevel STRONG, .interpolateStart ⟨0, 0⟩,
            .setStabilizerLevel SIMPLE, .pointerMove (mouseAt 4 0), .pointerMove (mouseAt 8 0),
            .interpolatePollAndPaint, .setStabilizerLevel STRONG, .interpolateEnd]
          (reset initial) = some s1 ∧
        s1.strokeQueue.length ≤ max 5 ratEnv.STROKE_QUEUE_LENGTH :=
  match Option.isSome_iff_exists.mp
      ((C16_queue_capacity ratEnv
          [.pointerPress (mouseAt 0 0), .setStabilizerLevel STRONG, .interpolateStart ⟨0, 0⟩,
            .setStabilizerLevel SIMPLE, .pointerMove (mouseAt 4 0), .pointerMove (mouseAt 8 0),
            .interpolatePollAndPaint, .setStabilizerLevel STRONG, .interpolateEnd]
          initial).1 (by simp)) with
  | ⟨s1, h1⟩ =>
    ⟨s1, h1,
      (C16_queue_capacity ratEnv
          [.pointerPress (mouseAt 0 0), .setStabilizerLevel STRONG, .interpolateStart ⟨0, 0⟩,
            .setStabilizerLevel SIMPLE, .pointerMove (mouseAt 4 0), .pointerMove (mouseAt 8 0),
            .interpolatePollAndPaint, .setStabilizerLevel STRONG, .interpolateEnd]
          initial).2.1 s1 h1⟩

/-! ### The cached tangent of SIMPLE mode -/

theorem ratEnv_length_horizontal (a b : ℚ) : ratEnv.length ⟨a, 0⟩ ⟨b, 0⟩ = |b - a| :=
  ratLength_horizontal a b

theorem staleSample_SimpleAt :
    SimpleAt staleSample ⟨0, 0⟩ ⟨1 / 1000, 0⟩ false ⟨1 / 9, 0⟩ true := by
  unfold SimpleAt
  decide!

theorem staleSample_stroke :
    (interpolateStroke ratEnv staleSample).1 =
      [⟨0, 0⟩, ⟨1 / 3000, 0⟩, ⟨7 / 9000, 0⟩, ⟨1 / 1000, 0⟩] := by
  have hlen : ratEnv.length ⟨0, 0⟩ ⟨1 / 1000, 0⟩ = 1 / 1000 := by
    rw [ratEnv_length_horizontal, sub_zero, abs_of_pos (by norm_num)]
  have hc : ¬ scaleThreshold < ratEnv.length ⟨0, 0⟩ ⟨1 / 1000, 0⟩ * 3 := by
    rw [hlen]; norm_num [scaleThreshold]
  rw [(interpolateStroke_continue_SimpleAt ratEnv _ _ _ _ _ _ staleSample_SimpleAt
    (Or.inr hc)).1, hlen]
  norm_num [QPointF.mk_sub_mk, QPointF.mk_div, QPointF.mk_add_mk, QPointF.mk_mul]

theorem staleSample_fresh_stroke :
    (interpolateStroke ratEnv { staleSample with m_previousTangent := ⟨0, 0⟩ }).1 =
      [⟨0, 0⟩, ⟨0, 0⟩, ⟨1 / 1500, 0⟩, ⟨1 / 1000, 0⟩] := by
  have hlen : ratEnv.length ⟨0, 0⟩ ⟨1 / 1000, 0⟩ = 1 / 1000 := by
    rw [ratEnv_length_horizontal, sub_zero, abs_of_pos (by norm_num)]
  have hc : ¬ scaleThreshold < ratEnv.length ⟨0, 0⟩ ⟨1 / 1000, 0⟩ * 3 := by
    rw [hlen]; norm_num [scaleThreshold]
  have hat :
      SimpleAt { staleSample with m_previousTangent := ⟨0, 0⟩ } ⟨0, 0⟩ ⟨1 / 1000, 0⟩ false
        ⟨0, 0⟩ true := by
    obtain ⟨h1, h2, h3, h4, -, h6⟩ := staleSample_SimpleAt
    exact ⟨h1, h2, h3, h4, rfl, h6⟩
  rw [(interpolateStroke_continue_SimpleAt ratEnv _ _ _ _ _ _ hat (Or.inr hc)).1, hlen]
  norm_num [QPointF.mk_sub_mk, QPointF.mk_div, QPointF.mk_add_mk, QPointF.mk_mul]

/-- C17 (the code at the failing input): `staleSample` has level SIMPLE and no tangent of its
own (`hasTangent = false`), but holds the tangent (1/9, 0) of the stroke before; its
`scaleFactor` is 3/1000, below the seeding threshold.  `interpolateStroke()` returns a
segment whose first control point is computed from that stale tangent; in the state that
differs only by `previousTangent = (0, 0)` it returns another segment. -/
theorem C17_stale_tangent_is_read :
    staleSample.mStabilizerLevel = SIMPLE ∧ staleSample.mHasTangent = false ∧
      staleSample.m_previousTangent = ⟨1 / 9, 0⟩ ∧
      (interpolateStroke ratEnv staleSample).1 =
        [⟨0, 0⟩, ⟨1 / 3000, 0⟩, ⟨7 / 9000, 0⟩, ⟨1 / 1000, 0⟩] ∧
      (interpolateStroke ratEnv { staleSample with m_previousTangent := ⟨0, 0⟩ }).1 =
        [⟨0, 0⟩, ⟨0, 0⟩, ⟨1 / 1500, 0⟩, ⟨1 / 1000, 0⟩] ∧
      (interpolateStroke ratEnv staleSample).1 ≠
        (interpolateStroke ratEnv { staleSample with m_previousTangent := ⟨0, 0⟩ }).1 := by
  obtain ⟨h1, -, -, h4, h5, -⟩ := staleSample_SimpleAt
  refine ⟨h1, h4, h5, staleSample_stroke, staleSample_fresh_stroke, ?_⟩
  rw [staleSample_stroke, staleSample_fresh_stroke]
  decide!

theorem moveAll_SimpleAt (env : Env) :
    ∀ (events : List PointerEvent) (s : State) (last cur tangent : QPointF)
      (hasTangent started : Bool), SimpleAt s last cur hasTangent tangent started →
      ∃ last2 cur2, SimpleAt (moveAll env events s) last2 cur2 hasTangent tangent started := by
  intro events
  induction events with
  | nil => intro s last cur tangent hasTangent started h; exact ⟨last, cur, h⟩
  | cons event events ih =>
    intro s last cur tangent hasTangent started h
    exact ih _ _ _ _ _ _ (pointerMoveEvent_SimpleAt env event s last cur tangent hasTangent
      started h)

theorem QPointF.add_zero_mul (p : QPointF) (c : ℚ) : p + (⟨0, 0⟩ : QPointF) * c = p := by
  simp [QPointF.eq_iff]

theorem candidate_length (env : Env) (last cur : QPointF)
    (hpos : 0 < env.length last cur) (he1 : Euclidean env last cur)
    (he2 : Euclidean env ⟨0, 0⟩ ((cur - last) / (3 * (env.length last cur * 3)))) :
    env.length ⟨0, 0⟩ ((cur - last) / (3 * (env.length last cur * 3))) = 1 / 9 := by
  obtain ⟨-, hsq⟩ := he1
  obtain ⟨hnn, hsq2⟩ := he2
  have hne : env.length last cur ≠ 0 := ne_of_gt hpos
  have hM :
      env.length ⟨0, 0⟩ ((cur - last) / (3 * (env.length last cur * 3))) *
        env.length ⟨0, 0⟩ ((cur - last) / (3 * (env.length last cur * 3))) = 1 / 81 := by
    rw [hsq2]
    simp only [QPointF.div_x, QPointF.div_y, QPointF.sub_x, QPointF.sub_y, sub_zero]
    have hsum :
        (cur.x - last.x) / (3 * (env.length last cur * 3)) *
            ((cur.x - last.x) / (3 * (env.length last cur * 3))) +
          (cur.y - last.y) / (3 * (env.length last cur * 3)) *
            ((cur.y - last.y) / (3 * (env.length last cur * 3))) =
        ((cur.x - last.x) * (cur.x - last.x) + (cur.y - last.y) * (cur.y - last.y)) /
          (81 * (env.length last cur * env.length last cur)) := by
      rw [div_mul_div_comm, div_mul_div_comm, ← add_div]
      congr 1
      ring
    rw [hsum, ← hsq]
    field_simp
    ring
  have hfac :
      (env.length ⟨0, 0⟩ ((cur - last) / (3 * (env.length last cur * 3))) - 1 / 9) *
        (env.length ⟨0, 0⟩ ((cur - last) / (3 * (env.length last cur * 3))) + 1 / 9) = 0 := by
    have hexp : ∀ m : ℚ, (m - 1 / 9) * (m + 1 / 9) = m * m - 1 / 81 := fun m => by ring
    rw [hexp, hM, sub_self]
  rcases mul_eq_zero.mp hfac with h | h
  · linarith
  · linarith

end StrokeManager
